import Mathlib

/-!
Verification of the progressive-disclosure validation engine of the
`claude-skills-cli` repository.

The TypeScript sources are embedded shallowly: document text is modelled as
`List Char`, every validator becomes a pure Lean function mirroring the
corresponding TypeScript function, and the stateful `SkillValidator`
orchestrator becomes explicit accumulation of error/warning lists in the
same order in which the class methods push them.  JavaScript regular
expressions are embedded as explicit character scanners that mirror the
regex engine's leftmost-match / advance-on-failure discipline; each scanner
is documented with the regex it implements.  JavaScript numbers reaching
arithmetic (`Math.round(w * 1.3)`, keyword-overlap ratios) are modelled as
exact rationals.
-/

namespace SkillsCli

/-- Document text, modelled as a list of characters. -/
abbrev Str := List Char

/-- Coerce a Lean string literal into the `List Char` representation. -/
def str (s : String) : Str := s.data

/-- JavaScript's `\s` character class (whitespace), as used by `split(/\s+/)`,
`trim()` and the other regexes of the validators. -/
def js_space (c : Char) : Bool :=
  c = ' ' || c = '\t' || c = '\n' || c = '\r' || c.val = 11 || c.val = 12 ||
  c.val = 0xA0 || c.val = 0x1680 || (0x2000 ≤ c.val && c.val ≤ 0x200A) ||
  c.val = 0x2028 || c.val = 0x2029 || c.val = 0x202F || c.val = 0x205F ||
  c.val = 0x3000 || c.val = 0xFEFF

/-- JavaScript's `\w` character class: ASCII letters, digits and underscore. -/
def js_word (c : Char) : Bool :=
  ('a' ≤ c && c ≤ 'z') || ('A' ≤ c && c ≤ 'Z') || ('0' ≤ c && c ≤ '9') || c = '_'

/-- JavaScript `String.prototype.trim()`: strip leading and trailing
whitespace. -/
def js_trim (s : Str) : Str :=
  ((s.dropWhile js_space).reverse.dropWhile js_space).reverse

/-- Split on a single character, JavaScript `split('c')` style: always at
least one piece, empty pieces kept. -/
def split_on_char (sep : Char) : Str → List Str
  | [] => [[]]
  | c :: cs =>
    match split_on_char sep cs with
    | [] => if c = sep then [[], []] else [[c]]
    | t :: ts => if c = sep then [] :: t :: ts else (c :: t) :: ts

/-- Maximal runs of non-whitespace characters.  `text.trim().split(/\s+/)`
followed by dropping empty pieces (as `count_words` in
`src/validators/text-analysis.ts` does) yields exactly these runs, since the
only empty pieces JavaScript's split can produce are at the two ends. -/
def words_go (cur : Str) : Str → List Str
  | [] => if cur.isEmpty then [] else [cur.reverse]
  | c :: cs =>
    if js_space c then
      if cur.isEmpty then words_go [] cs else cur.reverse :: words_go [] cs
    else words_go (c :: cur) cs

/-- The non-whitespace tokens of a text. -/
def words (s : Str) : List Str := words_go [] s

/-- `count_words` from `src/validators/text-analysis.ts`:
`text.trim().split(/\s+/).filter((w) => w.length > 0).length`. -/
def count_words (s : Str) : Nat := (words s).length

/-- JavaScript `String.prototype.includes`: substring test. -/
def contains_sub (needle : Str) : Str → Bool
  | [] => needle.isEmpty
  | c :: cs => needle.isPrefixOf (c :: cs) || contains_sub needle cs

/-- Lowercasing, `String.prototype.toLowerCase()` restricted to ASCII (the
validators only feed it markdown/ASCII text). -/
def to_lower (s : Str) : Str := s.map Char.toLower

/-- Decimal rendering of a natural number (for interpolated line numbers and
counts in diagnostic messages). -/
def nat_str_go : Nat → Nat → Str
  | 0, _ => []
  | _ + 1, n =>
    if n < 10 then [Char.ofNat (48 + n)]
    else nat_str_go (n / 10 + 1) (n / 10) ++ [Char.ofNat (48 + n % 10)]

/-- Decimal rendering of a natural number. -/
def nat_str (n : Nat) : Str := nat_str_go (n + 1) n

/-- First occurrence of `pat` (a nonempty literal) in a text; returns the
suffix following that occurrence. -/
def drop_past (pat : Str) : Str → Option Str
  | [] => none
  | c :: cs =>
    if pat.isPrefixOf (c :: cs) then some ((c :: cs).drop pat.length)
    else drop_past pat cs

/-- One fueled pass of `text.replace(/<!--[\s\S]*?-->/g, '')`
(`strip_html_comments` in `src/validators/text-analysis.ts`): at each
position, if `<!--` starts here and a `-->` follows, the whole lazy match is
removed and scanning resumes after it; otherwise the scanner advances one
character, exactly as the regex engine does.  The fuel is the remaining text
length, which suffices because every step strictly shrinks the text. -/
def strip_html_fuel : Nat → Str → Str
  | 0, s => s
  | _ + 1, [] => []
  | fuel + 1, c :: cs =>
    if (str "<!--").isPrefixOf (c :: cs) then
      match drop_past (str "-->") ((c :: cs).drop 4) with
      | some rest => strip_html_fuel fuel rest
      | none => c :: strip_html_fuel fuel cs
    else c :: strip_html_fuel fuel cs

/-- `strip_html_comments` from `src/validators/text-analysis.ts`:
`text.replace(/<!--[\s\S]*?-->/g, '')`. -/
def strip_html_comments (s : Str) : Str := strip_html_fuel s.length s

/-- `content.replace(/```[\s\S]*?```|~~~[\s\S]*?~~~/g, '')` — the
`strip_code_blocks` helper of `src/validators/references-validator.ts`. -/
def strip_code_fuel : Nat → Str → Str
  | 0, s => s
  | _ + 1, [] => []
  | fuel + 1, c :: cs =>
    if (str "```").isPrefixOf (c :: cs) then
      match drop_past (str "```") ((c :: cs).drop 3) with
      | some rest => strip_code_fuel fuel rest
      | none => c :: strip_code_fuel fuel cs
    else if (str "~~~").isPrefixOf (c :: cs) then
      match drop_past (str "~~~") ((c :: cs).drop 3) with
      | some rest => strip_code_fuel fuel rest
      | none => c :: strip_code_fuel fuel cs
    else c :: strip_code_fuel fuel cs

/-- `strip_code_blocks` from `src/validators/references-validator.ts`. -/
def strip_code_blocks (s : Str) : Str := strip_code_fuel s.length s

/-- `estimate_tokens` from `src/validators/text-analysis.ts`:
`Math.round(word_count * 1.3)`, computed exactly as `round(13·w/10)`
(rounding halves up, as `Math.round` does; for the word counts the
validator produces, the IEEE-double computation agrees with the exact
rational one). -/
def estimate_tokens (word_count : Nat) : Nat := (13 * word_count + 5) / 10

/-- `estimate_string_tokens` from `src/validators/text-analysis.ts`. -/
def estimate_string_tokens (s : Str) : Nat := estimate_tokens (count_words s)

/-- The fixed stopword list of `extract_keywords` in
`src/validators/text-analysis.ts`. -/
def stopwords : List Str :=
  [str "this", str "that", str "with", str "from", str "have", str "will",
   str "when", str "what", str "where", str "which", str "their", str "them",
   str "then", str "than", str "these", str "those", str "there"]

/-- Order-preserving deduplication keeping first occurrences, i.e.
JavaScript's `[...new Set(words)]`. -/
def dedup_first_go (seen : List Str) : List Str → List Str
  | [] => []
  | w :: ws =>
    if seen.contains w then dedup_first_go seen ws
    else w :: dedup_first_go (w :: seen) ws

/-- JavaScript `[...new Set(words)]`. -/
def dedup_first (l : List Str) : List Str := dedup_first_go [] l

/-- `extract_keywords` from `src/validators/text-analysis.ts`: lowercase,
replace every character outside `[\w\s-]` by a space, split on whitespace,
keep tokens of length > 3, deduplicate, and drop stopwords. -/
def extract_keywords (text : Str) : List Str :=
  let cleaned := (to_lower text).map
    (fun c => if js_word c || js_space c || c = '-' then c else ' ')
  let toks := (words cleaned).filter (fun w => w.length > 3)
  (dedup_first toks).filter (fun w => !(stopwords.contains w))

/-- The `word_count` size metric of `validate_content`
(`src/validators/content-validator.ts`, line 82): the body is *not*
stripped of HTML comments before words are counted. -/
def word_count_metric (body : Str) : Nat := count_words body

/-- The `line_count` size metric of `validate_content`
(`src/validators/content-validator.ts`, lines 86–87):
`strip_html_comments(body).trim().split('\n').length`. -/
def line_count_metric (body : Str) : Nat :=
  (split_on_char '\n' (js_trim (strip_html_comments body))).length

/-- Count of fenced code blocks: the number of matches of
`/```[\s\S]*?```/g` (from `analyze_content_structure` in
`src/validators/content-validator.ts`). -/
def code_blocks_fuel : Nat → Str → Nat
  | 0, _ => 0
  | _ + 1, [] => 0
  | fuel + 1, c :: cs =>
    if (str "```").isPrefixOf (c :: cs) then
      match drop_past (str "```") ((c :: cs).drop 3) with
      | some rest => 1 + code_blocks_fuel fuel rest
      | none => code_blocks_fuel fuel cs
    else code_blocks_fuel fuel cs

/-- Number of fenced code blocks in a body. -/
def count_code_blocks (s : Str) : Nat := code_blocks_fuel s.length s

/-- Does a document line start a markdown heading?  This is one match of
`/^#{1,6}\s/gm`: one to six `#` characters at the start of the line followed
by one whitespace character — which may be the newline ending the line, so a
line consisting solely of 1–6 `#` characters counts when another line
follows. -/
def is_heading_line (line : Str) (has_newline : Bool) : Bool :=
  let hashes := line.takeWhile (fun c => c = '#')
  let k := hashes.length
  1 ≤ k && k ≤ 6 &&
    (match line.drop k with
     | [] => has_newline
     | c :: _ => js_space c)

/-- `sections`: the number of matches of `/^#{1,6}\s/gm` in the body
(`analyze_content_structure`). -/
def count_sections (body : Str) : Nat :=
  let ls := split_on_char '\n' body
  (List.range ls.length).countP
    (fun i => is_heading_line (ls.getD i []) (decide (i + 1 < ls.length)))

/-- `body.split(/\n\n+/)`: pieces delimited by maximal runs of at least two
newlines. -/
def split_paras_fuel : Nat → Str → Str → List Str
  | 0, cur, _ => [cur.reverse]
  | _ + 1, cur, [] => [cur.reverse]
  | fuel + 1, cur, c :: cs =>
    if (str "\n\n").isPrefixOf (c :: cs) then
      cur.reverse :: split_paras_fuel fuel [] ((c :: cs).dropWhile (fun ch => ch = '\n'))
    else split_paras_fuel fuel (c :: cur) cs

/-- `body.split(/\n\n+/)`. -/
def split_paragraphs (body : Str) : List Str := split_paras_fuel body.length [] body

/-- `long_paragraphs`: blank-line-delimited paragraphs of more than 100
words (`analyze_content_structure`). -/
def count_long_paragraphs (body : Str) : Nat :=
  ((split_paragraphs body).filter (fun p => count_words p > 100)).length

/-- `ValidationMode` from `src/types.ts`: `'strict' | 'lenient' | 'loose'`. -/
inductive VMode where
  | strict
  | lenient
  | loose
deriving DecidableEq, Repr

/-- One row of the mode threshold table: excellent / good / max bounds. -/
structure Band where
  excellent : Nat
  good : Nat
  hardMax : Nat
deriving DecidableEq, Repr

/-- Modelled from the spec: the line-count threshold table of the
mode-aware content validator.  The repository snapshot contains only the
callers of the mode-aware `validate_content` (`SkillValidator` passes
`{ mode }`, and the CLI documents `--lenient` as "150 lines max" and
`--loose` as "500 lines max"); the validator file itself is absent, so the
table is taken from the specification's mode table. -/
def line_limits : VMode → Band
  | .strict => ⟨30, 40, 50⟩
  | .lenient => ⟨50, 100, 150⟩
  | .loose => ⟨100, 200, 500⟩

/-- Modelled from the spec: the word-count threshold table of the
mode-aware content validator (see `line_limits`). -/
def word_limits : VMode → Band
  | .strict => ⟨300, 500, 1000⟩
  | .lenient => ⟨500, 1000, 2000⟩
  | .loose => ⟨1000, 2000, 5000⟩

/-- Warning categories of `ContentWarning` in
`src/validators/content-validator.ts`. -/
inductive CTag where
  | word_count
  | line_count
  | code_blocks
  | long_paragraphs
  | sections
  | missing_quick_start
  | no_references
  | short_body
  | todo_placeholders
deriving DecidableEq, Repr

/-- `ContentStats` from `src/validators/content-validator.ts`. -/
structure ContentStats where
  word_count : Nat
  estimated_tokens : Nat
  line_count : Nat
  code_blocks : Nat
  sections : Nat
  long_paragraphs : Nat
deriving DecidableEq, Repr

/-- `ContentValidation` from `src/validators/content-validator.ts`;
diagnostics carry their category tag and message. -/
structure ContentValidation where
  stats : ContentStats
  warnings : List (CTag × Str)
  errors : List (CTag × Str)
deriving DecidableEq, Repr

/-- `analyze_content_structure` from
`src/validators/content-validator.ts`. -/
def analyze_content_structure (body : Str) : Nat × Nat × Nat :=
  (count_code_blocks body, count_sections body, count_long_paragraphs body)

/-- Modelled from the spec: the word-count error/warning pair of the
mode-aware content validator (see `validate_content`): exceeding the
band's max is an error, exceeding its good threshold (but at most max) is
a warning. -/
def word_diag_errors (wc : Nat) (b : Band) : List (CTag × Str) :=
  if wc > b.hardMax then
    [(.word_count, str "SKILL.md body has " ++ nat_str wc ++
      str " words (MAX: " ++ nat_str b.hardMax ++ str ")")]
  else []

/-- The word-count warning of the mode-aware content validator (emitted in
the `else if` branch below the hard-limit check). -/
def word_diag_warnings (wc : Nat) (b : Band) : List (CTag × Str) :=
  if wc > b.hardMax then []
  else if wc > b.good then
    [(.word_count, str "SKILL.md body has " ++ nat_str wc ++
      str " words (recommended: <" ++ nat_str b.good ++ str ", max: " ++
      nat_str b.hardMax ++ str ")")]
  else []

/-- The line-count error of the mode-aware content validator. -/
def line_diag_errors (lc : Nat) (b : Band) : List (CTag × Str) :=
  if lc > b.hardMax then
    [(.line_count, str "SKILL.md body is " ++ nat_str lc ++
      str " lines (MAX: " ++ nat_str b.hardMax ++ str ")")]
  else []

/-- The line-count warning of the mode-aware content validator. -/
def line_diag_warnings (lc : Nat) (b : Band) : List (CTag × Str) :=
  if lc > b.hardMax then []
  else if lc > b.good then
    [(.line_count, str "SKILL.md body is " ++ nat_str lc ++
      str " lines (recommended: ~" ++ nat_str b.good ++ str ", max: " ++
      nat_str b.hardMax ++ str ")")]
  else []

/-- The word-count size metric of the mode-aware content validator:
HTML-comment spans stripped before counting. -/
def moded_word_count (body : Str) : Nat := count_words (strip_html_comments body)

/-- The line-count size metric of the mode-aware content validator (equal
to `line_count_metric`). -/
def moded_line_count (body : Str) : Nat :=
  (split_on_char '\n' (js_trim (strip_html_comments body))).length

/-- The secondary structural warnings of the content validator (code
blocks, long paragraphs, sections, Quick Start, references link, short
body, TODO markers), as in the snapshot's `validate_content`; the
references-link check compares the line count against the mode band's good
threshold. -/
def structure_warnings (body : Str) (lc : Nat) (ll : Band) : List (CTag × Str) :=
  let st := analyze_content_structure body
  (if st.1 > 3 then
    [(.code_blocks, str "SKILL.md contains " ++ nat_str st.1 ++
      str " code examples (recommended: 1-2)")]
   else []) ++
  (if st.2.2 > 3 then
    [(.long_paragraphs, str "SKILL.md contains " ++ nat_str st.2.2 ++
      str " lengthy paragraphs (>100 words)")]
   else []) ++
  (if st.2.1 > 8 then
    [(.sections, str "SKILL.md contains " ++ nat_str st.2.1 ++
      str " sections (recommended: 3-5)")]
   else []) ++
  (if !(contains_sub (str "## Quick Start") body ||
        contains_sub (str "## Quick start") body) then
    [(.missing_quick_start, str "Missing Quick Start section")]
   else []) ++
  (if !(contains_sub (str "references/") body) && lc > ll.good then
    [(.no_references, str "No references/ links found but SKILL.md is " ++
      nat_str lc ++ str " lines")]
   else []) ++
  (if (js_trim body).length < 100 then
    [(.short_body, str "SKILL.md body is very short")]
   else []) ++
  (if contains_sub (str "TODO") body || contains_sub (str "[Add your") body ||
      contains_sub (str "[Provide") body then
    [(.todo_placeholders, str "SKILL.md contains TODO placeholders")]
   else [])

/-- Modelled from the spec: the mode-aware
`validate_content(body, { mode })` that `SkillValidator.validate_skill_md`
calls.  The repository snapshot only contains an older single-mode version
of `content-validator.ts`; the mode-dependent error/warning thresholds are
taken from the specification: a size metric exceeding the mode's max is an
error, exceeding the mode's good threshold (but at most max) is a warning,
and HTML-comment spans are stripped before the size metrics are computed.
The structural counts and secondary warnings follow the snapshot's
`validate_content`. -/
def validate_content (body : Str) (mode : VMode) : ContentValidation :=
  let wl := word_limits mode
  let ll := line_limits mode
  let wc := moded_word_count body
  let tok := estimate_tokens wc
  let lc := moded_line_count body
  let st := analyze_content_structure body
  { stats :=
      { word_count := wc, estimated_tokens := tok, line_count := lc,
        code_blocks := st.1, sections := st.2.1, long_paragraphs := st.2.2 },
    warnings := word_diag_warnings wc wl ++ line_diag_warnings lc ll ++
      structure_warnings body lc ll,
    errors := word_diag_errors wc wl ++ line_diag_errors lc ll }

/-- Warning categories of `DescriptionWarning` in
`src/validators/description-validator.ts`. -/
inductive DTag where
  | length
  | trigger
  | list_bloat
  | short
  | first_person
  | vague
deriving DecidableEq, Repr

/-- `DescriptionValidation` from `src/validators/description-validator.ts`
(stats are `description_length` and `description_tokens`). -/
structure DescValidation where
  description_length : Nat
  description_tokens : Nat
  warnings : List (DTag × Str)
  errors : List (DTag × Str)
deriving DecidableEq, Repr

/-- The trigger-keyword test shared by `validate_description_content` and
`analyze_trigger_phrase`: the lowercased description contains
`use when`, `use for` or `use to`. -/
def has_trigger (description : Str) : Bool :=
  let l := to_lower description
  contains_sub (str "use when") l || contains_sub (str "use for") l ||
    contains_sub (str "use to") l

/-- The missing-trigger-keywords warning message of
`validate_description_content`. -/
def trigger_keywords_warning : Str :=
  str "Description missing trigger keywords " ++
  str "('Use when...', 'Use for...', 'Use to...')\n" ++
  str "  → Help Claude know when to activate this skill"

/-- `validate_description_content` from
`src/validators/description-validator.ts`. -/
def validate_description_content (description : Str) : DescValidation :=
  let len := description.length
  let tok := estimate_string_tokens description
  let comma_count := description.count ','
  let errors : List (DTag × Str) :=
    if len > 300 then
      [(.length, str "Description is " ++ nat_str len ++
        str " characters (MAX: 300 for efficiency)")]
    else []
  let length_warnings : List (DTag × Str) :=
    if len > 300 then []
    else if len > 200 then
      [(.length, str "Description is " ++ nat_str len ++
        str " characters (recommended: <200), ~" ++ nat_str tok ++ str " tokens")]
    else []
  let trigger_warnings : List (DTag × Str) :=
    if !(has_trigger description) then [(.trigger, trigger_keywords_warning)]
    else []
  let bloat_warnings : List (DTag × Str) :=
    if len > 150 && comma_count ≥ 5 then
      [(.list_bloat, str "Description contains long lists (" ++
        nat_str comma_count ++ str " commas, " ++ nat_str len ++ str " chars)")]
    else []
  let short_warnings : List (DTag × Str) :=
    if len < 20 then
      [(.short, str "Description is very short (consider adding more detail)")]
    else []
  { description_length := len, description_tokens := tok,
    warnings := length_warnings ++ trigger_warnings ++ bloat_warnings ++
      short_warnings,
    errors := errors }

/-- `trigger_type` of `TriggerPhraseAnalysis` in `src/types.ts`. -/
inductive TType where
  | specific
  | generic
  | missing
deriving DecidableEq, Repr

/-- `TriggerPhraseAnalysis` from `src/types.ts`. -/
structure TriggerAnalysis where
  has_explicit_trigger : Bool
  trigger_phrase : Option Str
  trigger_type : TType
deriving DecidableEq, Repr

/-- Case-insensitive prefix test against a lowercase pattern. -/
def ci_starts (pat : Str) (s : Str) : Bool :=
  to_lower (s.take pat.length) = pat

/-- The scanner behind `description.match(/(use when|use for|use to)[^.!?]*/i)`:
find the leftmost case-insensitive occurrence of one of the three phrases
(at equal positions the alternatives are tried in the listed order) and
extend it greedily with every following character other than `.`, `!`, `?`.
The matched text keeps the original casing. -/
def tp_scan : Str → Option Str
  | [] => none
  | c :: cs =>
    let s := c :: cs
    let alt :=
      if ci_starts (str "use when") s then some 8
      else if ci_starts (str "use for") s then some 7
      else if ci_starts (str "use to") s then some 6
      else none
    match alt with
    | some n =>
      some (s.take n ++ (s.drop n).takeWhile
        (fun ch => !(ch == '.' || ch == '!' || ch == '?')))
    | none => tp_scan cs

/-- `analyze_trigger_phrase` from
`src/validators/description-validator.ts`. -/
def analyze_trigger_phrase (description : Str) : TriggerAnalysis :=
  if has_trigger description then
    match tp_scan description with
    | some m =>
      let phrase := js_trim m
      { has_explicit_trigger := true, trigger_phrase := some phrase,
        trigger_type := if phrase.length > 50 then .specific else .generic }
    | none =>
      { has_explicit_trigger := true, trigger_phrase := none,
        trigger_type := .missing }
  else
    { has_explicit_trigger := false, trigger_phrase := none,
      trigger_type := .missing }

/-- Word-boundary-delimited alternation search: the scanner behind
`/\b(alt₁|alt₂|…)\b/i.match`.  `alts` are lowercase; the match (in original
casing) is returned.  A position qualifies when the previous character is
not a word character, one alternative matches case-insensitively, and the
character following it is absent or not a word character. -/
def try_word_alts (alts : List Str) (s : Str) : Option Str :=
  match alts with
  | [] => none
  | a :: rest =>
    if ci_starts a s &&
        (match s.drop a.length with
         | [] => true
         | c :: _ => !js_word c) then
      some (s.take a.length)
    else try_word_alts rest s

/-- Scan for a word-boundary-delimited alternative (see `try_word_alts`). -/
def waf_go (alts : List Str) (prev_word : Bool) : Str → Option Str
  | [] => none
  | c :: cs =>
    match (if prev_word then none else try_word_alts alts (c :: cs)) with
    | some m => some m
    | none => waf_go alts (js_word c) cs

/-- `description.match(/\b(…)\b/i)` for a lowercase alternation list. -/
def word_alt_find (alts : List Str) (s : Str) : Option Str :=
  waf_go alts false s

/-- The alternation of the first-person regex
`/\b(I can|I will|I help|my|me)\b/i`. -/
def first_person_alts : List Str :=
  [str "i can", str "i will", str "i help", str "my", str "me"]

/-- The alternation of the vague-term regex
`/\b(helper|utility|tool|various|several|some)\b/i`. -/
def vague_alts : List Str :=
  [str "helper", str "utility", str "tool", str "various", str "several",
   str "some"]

/-- The `style_checks` record of `UserPhrasingAnalysis` in `src/types.ts`. -/
structure PhrasingChecks where
  is_third_person : Bool
  uses_gerund_form : Bool
  is_action_oriented : Bool
deriving DecidableEq, Repr

/-- Maximal runs of `\w` characters (for the gerund check
`/\b\w+ing\b/i`). -/
def word_runs_go (cur : Str) : Str → List Str
  | [] => if cur.isEmpty then [] else [cur.reverse]
  | c :: cs =>
    if js_word c then word_runs_go (c :: cur) cs
    else if cur.isEmpty then word_runs_go [] cs
    else cur.reverse :: word_runs_go [] cs

/-- Maximal runs of `\w` characters. -/
def word_runs (s : Str) : List Str := word_runs_go [] s

/-- The action-verb alternation of
`/^(create|build|design|analyze|test|validate|generate|process|manage|execute|handle|provide)/i`. -/
def action_verb_alts : List Str :=
  [str "create", str "build", str "design", str "analyze", str "test",
   str "validate", str "generate", str "process", str "manage",
   str "execute", str "handle", str "provide"]

/-- `analyze_user_phrasing` from
`src/validators/description-validator.ts`: returns the style checks and the
first-person / vague-term warnings. -/
def analyze_user_phrasing (description : Str) :
    PhrasingChecks × List (DTag × Str) :=
  let fp := word_alt_find first_person_alts description
  let vg := word_alt_find vague_alts description
  let fp_warnings : List (DTag × Str) :=
    match fp with
    | some m =>
      [(.first_person, str "Description uses first person: " ++ m)]
    | none => []
  let vg_warnings : List (DTag × Str) :=
    match vg with
    | some m =>
      [(.vague, str "Description contains vague term: " ++ m)]
    | none => []
  let checks : PhrasingChecks :=
    { is_third_person := fp.isNone,
      uses_gerund_form := (word_runs description).any
        (fun r => r.length ≥ 4 && (str "ing").isSuffixOf (to_lower r)),
      is_action_oriented :=
        (action_verb_alts.any (fun a => ci_starts a (js_trim description))) }
  (checks, fp_warnings ++ vg_warnings)

/-- `severity` of `AlignmentAnalysis` in `src/types.ts`. -/
inductive Severity where
  | good
  | moderate
  | critical
deriving DecidableEq, Repr

/-- The keyword-overlap ratio computed inside `analyze_alignment`
(`src/validators/alignment-validator.ts`):
`desc_keywords.length > 0 ? overlap.length / desc_keywords.length : 0`,
modelled as an exact rational. -/
def overlap_ratio_q (description body : Str) : ℚ :=
  let dk := extract_keywords description
  let ck := extract_keywords body
  let ov := dk.filter (fun k => ck.contains k)
  if dk.length > 0 then (ov.length : ℚ) / (dk.length : ℚ) else 0

/-- `Math.round(overlap_ratio * 100)` as it appears in the alignment
messages. -/
def overlap_pct (o d : Nat) : Nat :=
  if d = 0 then 0 else (200 * o + d) / (2 * d)

/-- Decidable form of `overlap_ratio < num/den` where the ratio is `o/d`
(and `0` when `d = 0`), used so the comparison is executable; it agrees
with the rational comparison on `overlap_ratio_q` (proved below). -/
def ratio_lt (o d num den : Nat) : Bool :=
  if d = 0 then decide (0 < num) else decide (den * o < num * d)

/-- Result of `analyze_alignment` from
`src/validators/alignment-validator.ts` (the keyword lists, the severity
tier, and the emitted warnings). -/
structure AlignmentValidation where
  description_keywords : List Str
  content_keywords : List Str
  overlap : List Str
  description_only : List Str
  severity : Severity
  warnings : List Str
deriving DecidableEq, Repr

/-- `analyze_alignment` from `src/validators/alignment-validator.ts`. -/
def analyze_alignment (description body : Str) : AlignmentValidation :=
  let dk := extract_keywords description
  let ck := extract_keywords body
  let ov := dk.filter (fun k => ck.contains k)
  let d_only := dk.filter (fun k => !ck.contains k)
  let severity : Severity :=
    if ratio_lt ov.length dk.length 1 5 && decide (dk.length > 5) then .critical
    else if ratio_lt ov.length dk.length 3 10 && decide (dk.length > 5) then .moderate
    else .good
  let warnings : List Str :=
    if ratio_lt ov.length dk.length 3 10 && decide (dk.length > 5) then
      [str "Low keyword overlap between description and content (" ++
        nat_str (overlap_pct ov.length dk.length) ++ str "%)\n" ++
        str "  → Description may not accurately reflect skill content"]
    else []
  { description_keywords := dk, content_keywords := ck, overlap := ov,
    description_only := d_only, severity := severity, warnings := warnings }

/-- `has_yaml_frontmatter` from `src/validators/frontmatter-validator.ts`:
`content.startsWith('---\n') || content.startsWith('---\r\n')`. -/
def has_yaml_frontmatter (content : Str) : Bool :=
  (str "---\n").isPrefixOf content || (str "---\r\n").isPrefixOf content

/-- JavaScript `content.split('---\n')` (split on a nonempty literal
separator, left to right, empty pieces kept). -/
def sos_go (sep : Str) : Nat → Str → Str → List Str
  | 0, cur, rest => [cur.reverse ++ rest]
  | _ + 1, cur, [] => [cur.reverse]
  | fuel + 1, cur, c :: cs =>
    if sep.isPrefixOf (c :: cs) then
      cur.reverse :: sos_go sep fuel [] ((c :: cs).drop sep.length)
    else sos_go sep fuel (c :: cur) cs

/-- JavaScript `s.split(sep)` for a nonempty literal separator. -/
def split_on_str (sep s : Str) : List Str := sos_go sep s.length [] s

/-- JavaScript `pieces.join(sep)`. -/
def join_with (sep : Str) : List Str → Str
  | [] => []
  | [p] => p
  | p :: ps => p ++ sep ++ join_with sep ps

/-- One match of `/^[a-z_-]+:/` against a line: a nonempty run of
`[a-z_-]` characters at the start followed by `:`. -/
def is_key_line (l : Str) : Bool :=
  let run := l.takeWhile (fun c => ('a' ≤ c && c ≤ 'z') || c == '_' || c == '-')
  !run.isEmpty &&
    (match l.drop run.length with
     | ':' :: _ => true
     | _ => false)

/-- One match of `/^\s+\S/` against a line: starts with whitespace and has a
later non-whitespace character. -/
def is_continuation_line (l : Str) : Bool :=
  match l with
  | [] => false
  | c :: _ => js_space c && !((l.dropWhile js_space).isEmpty)

/-- The continuation-line scan of `is_description_multiline`
(`src/validators/frontmatter-validator.ts`, lines 46–68), applied to the
lines after the `description:` line. -/
def multiline_scan : List Str → Bool
  | [] => false
  | l :: ls =>
    if is_continuation_line l &&
        !(match js_trim l with
          | '#' :: _ => true
          | _ => false) &&
        !is_key_line l then true
    else if is_key_line l then false
    else multiline_scan ls

/-- Locate the first line matching `/^description:/m`; returns it together
with the following lines. -/
def find_desc_line : List Str → Option (Str × List Str)
  | [] => none
  | l :: ls =>
    if (str "description:").isPrefixOf l then some (l, ls)
    else find_desc_line ls

/-- `is_description_multiline` from
`src/validators/frontmatter-validator.ts`. -/
def is_description_multiline (frontmatter : Str) : Bool :=
  match find_desc_line (split_on_char '\n' frontmatter) with
  | none => false
  | some (l, rest) =>
    let value := js_trim (l.drop 12)
    if value.isEmpty then true else multiline_scan rest

/-- The capture of `frontmatter.match(/name:\s*(.+)/)`, already trimmed as
the caller does.  After the first `name:` the regex skips whitespace
greedily (across newlines) and captures the remainder of that line; when
everything after `name:` is whitespace it can still match a lone non-newline
whitespace character, which trims to the empty string. -/
def js_match_name (fm : Str) : Option Str :=
  match drop_past (str "name:") fm with
  | none => none
  | some rest =>
    match rest.dropWhile js_space with
    | [] => if rest.any (fun c => !(c == '\n')) then some [] else none
    | c :: cs => some (js_trim ((c :: cs).takeWhile (fun ch => !(ch == '\n'))))

/-- The zero-width lookahead `(?=\n[a-z]+:)`. -/
def lookahead_key (s : Str) : Bool :=
  match s with
  | '\n' :: rest =>
    let run := rest.takeWhile (fun c => 'a' ≤ c && c ≤ 'z')
    !run.isEmpty &&
      (match rest.drop run.length with
       | ':' :: _ => true
       | _ => false)
  | _ => false

/-- The lazy capture `(.+?)` of the description regex: at least one
character, growing until the key-line lookahead or the end of input. -/
def desc_take_go : Str → Str
  | [] => []
  | c :: cs => if lookahead_key (c :: cs) then [] else c :: desc_take_go cs

/-- The capture of
`frontmatter.match(/description:\s*(.+?)(?=\n[a-z]+:|$)/s)`, already
trimmed as the caller does. -/
def js_match_desc (fm : Str) : Option Str :=
  match drop_past (str "description:") fm with
  | none => none
  | some rest =>
    match rest.dropWhile js_space with
    | [] => if rest.isEmpty then none else some []
    | c :: cs => some (js_trim (c :: desc_take_go cs))

/-- `FrontmatterData` from `src/validators/frontmatter-validator.ts`. -/
structure FrontmatterData where
  fm_name : Option Str
  fm_description : Option Str
  body : Str
  description_is_multiline : Bool
deriving DecidableEq, Repr

/-- `extract_frontmatter` from
`src/validators/frontmatter-validator.ts`. -/
def extract_frontmatter (content : Str) : FrontmatterData :=
  if !(has_yaml_frontmatter content) then
    ⟨none, none, content, false⟩
  else
    match split_on_str (str "---\n") content with
    | p0 :: p1 :: p2 :: ps =>
      let _ := p0
      let fm := p1
      let body := join_with (str "---\n") (p2 :: ps)
      ⟨js_match_name fm, js_match_desc fm, body, is_description_multiline fm⟩
    | _ => ⟨none, none, content, false⟩

/-- `YAMLValidation` from `src/types.ts`. -/
structure YAMLValidation where
  valid : Bool
  has_frontmatter : Bool
  parse_error : Option Str
  missing_fields : List Str
deriving DecidableEq, Repr

/-- `validate_frontmatter_structure` from
`src/validators/frontmatter-validator.ts`. -/
def validate_frontmatter_structure (content : Str) : YAMLValidation :=
  if !(has_yaml_frontmatter content) then
    ⟨false, false, some (str "Missing YAML frontmatter"), []⟩
  else
    match split_on_str (str "---\n") content with
    | _ :: fm :: _ :: _ =>
      let missing :=
        (if !(contains_sub (str "name:") fm) then [str "name"] else []) ++
        (if !(contains_sub (str "description:") fm) then [str "description"]
         else [])
      ⟨missing.isEmpty, true, none, missing⟩
    | _ => ⟨false, true, some (str "Malformed YAML frontmatter"), []⟩

/-- `NameFormatValidation` from `src/types.ts`. -/
structure NameFormatValidation where
  nm : Str
  format_valid : Bool
  directory_name : Str
  matches_directory : Bool
  errors : List Str
deriving DecidableEq, Repr

/-- `/^[a-z0-9-]+$/.test(name)`. -/
def is_kebab (name : Str) : Bool :=
  !name.isEmpty &&
    name.all (fun c => ('a' ≤ c && c ≤ 'z') || ('0' ≤ c && c ≤ '9') || c == '-')

/-- `validate_name_format` from
`src/validators/frontmatter-validator.ts`. -/
def validate_name_format (name directory_name : Str) : NameFormatValidation :=
  let fmt_ok := is_kebab name
  let dir_ok := name = directory_name
  { nm := name, format_valid := fmt_ok, directory_name := directory_name,
    matches_directory := dir_ok,
    errors :=
      (if !fmt_ok then
        [str "Skill name must be lowercase kebab-case: '" ++ name ++ str "'"]
       else []) ++
      (if !dir_ok then
        [str "Skill name '" ++ name ++ str "' must match directory name '" ++
          directory_name ++ str "'"]
       else []) }

/-- `validate_hard_limits` from
`src/validators/frontmatter-validator.ts` (the two optional error
messages). -/
def validate_hard_limits (name description : Str) : Option Str × Option Str :=
  ((if name.length > 64 then
      some (str "Skill name too long (max 64 chars): " ++ nat_str name.length)
    else none),
   (if description.length > 1024 then
      some (str "Description too long (max 1024 chars per Anthropic): " ++
        nat_str description.length)
    else none))

/-- `PathFormatIssue` from `src/types.ts`. -/
structure PathIssue where
  line_number : Nat
  path : Str
  suggested_fix : Str
deriving DecidableEq, Repr

/-- The directory-name alternation of the Windows-path regex
`/(?:scripts|references|assets|examples)\\[\w\\.-]+/g`. -/
def frag_alts : List Str :=
  [str "scripts", str "references", str "assets", str "examples"]

/-- The character class `[\w\\.-]` of the Windows-path regex. -/
def frag_class (c : Char) : Bool :=
  js_word c || c == '\\' || c == '.' || c == '-'

/-- Try to match the Windows-path regex at the current position: one of the
directory names, a backslash, then a nonempty greedy `[\w\\.-]` run.
Returns the match and the remaining text. -/
def frag_alt_try : List Str → Str → Option (Str × Str)
  | [], _ => none
  | a :: rest, s =>
    if (a ++ ['\\']).isPrefixOf s then
      let after := s.drop (a.length + 1)
      let run := after.takeWhile frag_class
      if run.isEmpty then frag_alt_try rest s
      else some (a ++ '\\' :: run, after.drop run.length)
    else frag_alt_try rest s

/-- All matches of `/(?:scripts|references|assets|examples)\\[\w\\.-]+/g`
in a line (leftmost, non-overlapping, advance one character on failure). -/
def find_frags_fuel : Nat → Str → List Str
  | 0, _ => []
  | _ + 1, [] => []
  | fuel + 1, c :: cs =>
    match frag_alt_try frag_alts (c :: cs) with
    | some (m, rest) => m :: find_frags_fuel fuel rest
    | none => find_frags_fuel fuel cs

/-- All Windows-style path fragments in a line. -/
def find_frags (s : Str) : List Str := find_frags_fuel s.length s

/-- `match.replace(/\\/g, '/')`. -/
def backslash_to_slash (s : Str) : Str :=
  s.map (fun c => if c == '\\' then '/' else c)

/-- The code-fence skip of `validate_path_formats`:
`line.trim().startsWith('```')`. -/
def starts_with_fence (l : Str) : Bool :=
  (str "```").isPrefixOf (js_trim l)

/-- The diagnostic message `validate_path_formats` builds for one detected
fragment. -/
def path_error_msg (iss : PathIssue) : Str :=
  str "Windows-style path in SKILL.md:" ++ nat_str iss.line_number ++
  str "\n  → Found: " ++ iss.path ++ str "\n  → Use: " ++ iss.suggested_fix

/-- `validate_path_formats` from
`src/validators/file-structure-validator.ts` (with the default
`file_name = 'SKILL.md'`): every line whose trimmed form does not start
with three backticks is scanned for Windows-style path fragments, and each
fragment yields a `PathIssue` and an error message reporting the fragment
and its forward-slash form. -/
def validate_path_formats (content : Str) : List PathIssue × List Str :=
  let ls := split_on_char '\n' content
  let issues := (List.range ls.length).flatMap (fun i =>
    let line := ls.getD i []
    if starts_with_fence line then []
    else (find_frags line).map (fun m =>
      { line_number := i + 1, path := m,
        suggested_fix := backslash_to_slash m }))
  (issues, issues.map path_error_msg)

/-- One entry of a modelled `scripts/` directory: file name, `stat` mode
bits, content. -/
structure ScriptFile where
  fname : Str
  fmode : Nat
  content : Str
deriving DecidableEq, Repr

/-- The state of the package root for `validate_directory`. -/
inductive DirState where
  | missing
  | notDir
  | ok
deriving DecidableEq, Repr

/-- The on-disk state of one package, as the validators observe it through
`existsSync` / `readFileSync` / `readdirSync` / `statSync`.  `files` maps
package-relative paths (`SKILL.md`, `references/….md`, …) to contents;
since every validator call joins the fixed package root with such a
relative path, the join is dropped from the model.  The three optional
listings model the auxiliary directories (`none` = directory absent). -/
structure SkillFS where
  dir_state : DirState
  files : List (Str × Str)
  ref_listing : Option (List Str)
  scripts_listing : Option (List ScriptFile)
  assets_listing : Option (List Str)
deriving Repr

/-- `existsSync` + `readFileSync` for a package-relative path. -/
def fs_lookup (fs : SkillFS) (p : Str) : Option Str :=
  match fs.files.find? (fun e => e.1 = p) with
  | some e => some e.2
  | none => none

/-- `validate_directory` from
`src/validators/file-structure-validator.ts` (error messages only). -/
def validate_directory (path : Str) (fs : SkillFS) : List Str :=
  match fs.dir_state with
  | .missing => [str "Skill directory does not exist: " ++ path]
  | .notDir => [str "Path is not a directory: " ++ path]
  | .ok => []

/-- `validate_scripts` from
`src/validators/file-structure-validator.ts`: warn on an empty directory,
on scripts without the execute bit, and on scripts without a shebang. -/
def validate_scripts (fs : SkillFS) : List Str :=
  match fs.scripts_listing with
  | none => []
  | some files =>
    let script_files := files.filter (fun f =>
      (str ".js").isSuffixOf f.fname || (str ".ts").isSuffixOf f.fname ||
      (str ".mjs").isSuffixOf f.fname || (str ".sh").isSuffixOf f.fname)
    (if script_files.isEmpty then
      [str "scripts/ directory exists but is empty"]
     else []) ++
    script_files.flatMap (fun f =>
      (if f.fmode &&& 0o111 = 0 then
        [str "Script is not executable: " ++ f.fname]
       else []) ++
      (if !(str "#!").isPrefixOf ((split_on_char '\n' f.content).headD []) then
        [str "Script missing shebang: " ++ f.fname]
       else []))

/-- `validate_assets` from
`src/validators/file-structure-validator.ts`. -/
def validate_assets (fs : SkillFS) : List Str :=
  match fs.assets_listing with
  | none => []
  | some files =>
    if files.isEmpty then [str "assets/ directory exists but is empty"]
    else []

/-- Try to match `/\[([^\]]+)\]\((references\/[^)]+\.md)\)/` at the current
position: `[`, a nonempty run without `]`, `](`, then a parenthesised path
that starts with `references/`, ends with `.md` and has at least one
character in between (no `)` inside).  Returns `((link text, path), rest)`. -/
def link_try (s : Str) : Option ((Str × Str) × Str) :=
  match s with
  | '[' :: rest =>
    let t := rest.takeWhile (fun c => !(c == ']'))
    if t.isEmpty then none
    else
      match rest.drop t.length with
      | ']' :: '(' :: after =>
        let inner := after.takeWhile (fun c => !(c == ')'))
        (match after.drop inner.length with
         | ')' :: rem =>
           if (str "references/").isPrefixOf inner &&
               (str ".md").isSuffixOf inner && decide (inner.length ≥ 15) then
             some ((t, inner), rem)
           else none
         | _ => none)
      | _ => none
  | _ => none

/-- All matches of the reference-link regex (leftmost, non-overlapping,
advance one character on failure). -/
def links_fuel : Nat → Str → List (Str × Str)
  | 0, _ => []
  | _ + 1, [] => []
  | fuel + 1, c :: cs =>
    match link_try (c :: cs) with
    | some (p, rem) => p :: links_fuel fuel rem
    | none => links_fuel fuel cs

/-- `[...content.matchAll(/\[([^\]]+)\]\((references\/[^)]+\.md)\)/g)]` as
`(link text, path)` pairs. -/
def extract_md_links (s : Str) : List (Str × Str) := links_fuel s.length s

lemma fs_lookup_mem {fs : SkillFS} {p c : Str}
    (h : fs_lookup fs p = some c) : p ∈ fs.files.map Prod.fst := by
  unfold fs_lookup at h
  rcases hf : fs.files.find? (fun e => decide (e.1 = p)) with _ | e
  · rw [hf] at h; cases h
  · have hm := List.mem_of_find?_eq_some hf
    have hp := List.find?_some hf
    have : e.1 = p := of_decide_eq_true hp
    subst this
    exact List.mem_map_of_mem Prod.fst hm

lemma length_filter_le_filter {α : Type} (l : List α) (p q : α → Bool)
    (himp : ∀ a, q a = true → p a = true) :
    (l.filter q).length ≤ (l.filter p).length := by
  induction l with
  | nil => simp
  | cons hd tl ih =>
    by_cases hq : q hd = true
    · simp [List.filter, hq, himp hd hq, ih]
    · have hq' : q hd = false := by revert hq; cases q hd <;> simp
      by_cases hp : p hd = true
      · simp [List.filter, hq', hp]; omega
      · have hp' : p hd = false := by revert hp; cases p hd <;> simp
        simp [List.filter, hq', hp', ih]

lemma filter_lt_of_mem {α : Type} (l : List α) (p q : α → Bool)
    (himp : ∀ a, q a = true → p a = true) (x : α) (hx : x ∈ l)
    (hpx : p x = true) (hqx : q x = false) :
    (l.filter q).length < (l.filter p).length := by
  induction l with
  | nil => simp at hx
  | cons hd tl ih =>
    rcases List.mem_cons.mp hx with h | h
    · subst h
      simp only [List.filter, hpx, hqx, List.length_cons]
      have := length_filter_le_filter tl p q himp
      omega
    · by_cases hq : q hd = true
      · simp only [List.filter, hq, himp hd hq, List.length_cons]
        exact Nat.succ_lt_succ (ih h)
      · have hq' : q hd = false := by revert hq; cases q hd <;> simp
        have h2 : (List.filter p tl).length ≤ (List.filter p (hd :: tl)).length := by
          by_cases hp : p hd = true
          · simp [List.filter, hp]
          · have hp' : p hd = false := by revert hp; cases p hd <;> simp
            simp [List.filter, hp']
        simp only [List.filter, hq']
        exact Nat.lt_of_lt_of_le (ih h) h2

/-- The outbound reference links of a file's content: the link paths
extracted after stripping fenced code blocks (`references` local of
`check_reference_nesting`). -/
def content_refs (content : Str) : List Str :=
  (extract_md_links (strip_code_blocks content)).map Prod.snd

/-- `check_reference_nesting` from
`src/validators/references-validator.ts`: a path already on the current
traversal contributes depth 0; a missing file contributes depth 0; a file
with no outbound reference links has depth 1; otherwise the depth is the
maximum over all outbound links of `1 +` the link target's depth (computed
with a copy of the visited set extended by the current path).  Totality of
this Lean function is the termination argument: each recursive call
strictly shrinks the set of on-disk paths not yet visited. -/
def check_reference_nesting (fs : SkillFS) (visited : List Str)
    (file_path : Str) : Nat × List Str :=
  if h1 : visited.contains file_path = true then (0, [])
  else
    match h2 : fs_lookup fs file_path with
    | none => (0, [])
    | some content =>
      let refs := content_refs content
      if refs.isEmpty then (1, [])
      else
        (refs.foldl
          (fun md r =>
            max md (1 + (check_reference_nesting fs (file_path :: visited) r).1))
          1, refs)
termination_by
  ((fs.files.map Prod.fst).filter (fun p => !(visited.contains p))).length
decreasing_by
  refine filter_lt_of_mem _ _ _ ?himp file_path (fs_lookup_mem h2) ?hpx ?hqx
  case himp =>
    intro a ha
    simp only [Bool.not_eq_true', List.contains_cons, Bool.or_eq_false_iff] at ha ⊢
    exact ha.2
  case hpx =>
    simp only [Bool.not_eq_true']
    revert h1
    cases List.contains visited file_path <;> simp
  case hqx => simp

/-- `ReferenceNesting` from `src/types.ts`. -/
structure NestingRec where
  file : Str
  references : List Str
  depth : Nat
  warning : Option Str
deriving DecidableEq, Repr

/-- `ReferencesValidation` plus the warning/error lists of
`ReferencesResult` from `src/validators/references-validator.ts`. -/
structure ReferencesResult where
  files_found : List Str
  files_referenced : List Str
  missing_files : List Str
  orphaned_files : List Str
  nesting : List NestingRec
  max_nesting_depth : Nat
  warnings : List Str
  errors : List Str
deriving Repr

/-- The `orphaned_file` warning message of `validate_references`. -/
def orphan_warning_msg (f : Str) : Str :=
  str "Reference file '" ++ f ++ str "' not mentioned in SKILL.md"

/-- The `nesting_depth` warning message of `validate_references`. -/
def nesting_warning_msg (p : Str) (d : Nat) : Str :=
  p ++ str " has nesting depth " ++ nat_str d ++
  str " (recommended: 1)\n  → Keep references one level deep from SKILL.md for clarity"

/-- The `missing_file` error message of `validate_references`. -/
def missing_file_msg (text p : Str) : Str :=
  str "Referenced file not found: " ++ p ++ str "\n  → Linked from: [" ++
  text ++ str "]\n  → Create the file or remove the broken link"

/-- The `.md` entries of the references directory listing (the
`md_files` local of `validate_references`). -/
def ref_md_files (fs : SkillFS) : List Str :=
  match fs.ref_listing with
  | none => []
  | some files => files.filter (fun f => (str ".md").isSuffixOf f)

/-- The `empty_directory` warning of `validate_references`. -/
def vr_empty_warns (fs : SkillFS) : List Str :=
  match fs.ref_listing with
  | none => []
  | some _ =>
    if (ref_md_files fs).isEmpty then
      [str "references/ directory exists but is empty"]
    else []

/-- The `orphaned_file` warnings of `validate_references`: when both the
references directory and SKILL.md exist, one warning per `.md` entry whose
name does not occur as a substring of the raw SKILL.md content. -/
def vr_mention_warns (fs : SkillFS) : List Str :=
  match fs.ref_listing, fs_lookup fs (str "SKILL.md") with
  | some _, some sc =>
    ((ref_md_files fs).filter (fun f => !(contains_sub f sc))).map
      orphan_warning_msg
  | _, _ => []

/-- The reference links of SKILL.md (fenced code blocks stripped first). -/
def vr_links (fs : SkillFS) : List (Str × Str) :=
  match fs_lookup fs (str "SKILL.md") with
  | none => []
  | some sc => extract_md_links (strip_code_blocks sc)

/-- The `missing_file` errors of `validate_references`. -/
def vr_link_errors (fs : SkillFS) : List Str :=
  (vr_links fs).flatMap (fun l =>
    if (fs_lookup fs l.2).isNone then [missing_file_msg l.1 l.2] else [])

/-- The nesting records of `validate_references` (one per link whose target
exists). -/
def vr_nesting_data (fs : SkillFS) : List NestingRec :=
  (vr_links fs).flatMap (fun l =>
    if (fs_lookup fs l.2).isSome then
      let n := check_reference_nesting fs [] l.2
      [{ file := l.2, references := n.2, depth := n.1,
         warning :=
           if n.1 > 1 then
             some (str "File has depth " ++ nat_str n.1 ++
               str " (recommended: 1). Keep references one level deep from SKILL.md.")
           else none }]
    else [])

/-- The `nesting_depth` warnings of `validate_references` (the local
`nesting` of the source is written out as the traversal call). -/
def vr_nesting_warns (fs : SkillFS) : List Str :=
  (vr_links fs).flatMap (fun l =>
    if (fs_lookup fs l.2).isSome then
      (if (check_reference_nesting fs [] l.2).1 > 1 then
        [nesting_warning_msg l.2 (check_reference_nesting fs [] l.2).1]
       else [])
    else [])

/-- `validate_references` from
`src/validators/references-validator.ts`.  `files_found` are the `.md`
entries of the references directory; an `orphaned_file` warning is pushed
for each of them whose name does not occur as a substring of the raw
SKILL.md content; links are extracted from SKILL.md with fenced code blocks
stripped; each link either reports a missing target (error) or a nesting
record with a depth warning when the depth exceeds 1.  Warnings are
accumulated in push order: empty-directory, orphaned-file, nesting. -/
def validate_references (fs : SkillFS) : ReferencesResult :=
  let md_files := ref_md_files fs
  let links := vr_links fs
  let files_referenced := links.map Prod.snd
  let missing_files :=
    (links.filter (fun l => (fs_lookup fs l.2).isNone)).map Prod.snd
  let orphaned := md_files.filter (fun f =>
    !(files_referenced.any (fun ref => contains_sub f ref)))
  { files_found := md_files, files_referenced := files_referenced,
    missing_files := missing_files, orphaned_files := orphaned,
    nesting := vr_nesting_data fs,
    max_nesting_depth := (vr_nesting_data fs).foldl (fun m n => max m n.depth) 0,
    warnings := vr_empty_warns fs ++ vr_mention_warns fs ++ vr_nesting_warns fs,
    errors := vr_link_errors fs }

/-- The `❌ ` prefix the orchestrator's `error()` helper adds. -/
def err_mark (m : Str) : Str := str "❌ " ++ m

/-- The `⚠️  ` prefix the orchestrator's `warning()` helper adds. -/
def warn_mark (m : Str) : Str := str "⚠️  " ++ m

/-- `skill_path.replace(/\/+$/, '').split('/').pop() || ''` — the directory
name the orchestrator compares the frontmatter name against. -/
def js_basename (path : Str) : Str :=
  (split_on_char '/' ((path.reverse.dropWhile (fun c => c == '/')).reverse)).getLastD []

/-- The explicit-trigger warning `validate_skill_md` pushes when
`analyze_trigger_phrase` finds no trigger phrase. -/
def explicit_trigger_warning : Str :=
  str "Description missing explicit trigger phrase " ++
  str "('Use when...', 'Use for...', 'Use to...')\n" ++
  str "  → Help Claude know when to activate this skill"

/-- The outcome of `SkillValidator.validate_skill_md` (part of the
orchestrator in `src/core/validator.ts`): errors and warnings in push
order, plus the word/line counts recorded into `this.stats` (0 when the
method returned before content validation ran). -/
structure SmdOut where
  errors : List Str
  warnings : List Str
  wc : Nat
  lc : Nat
deriving Repr

/-- `SkillValidator.validate_skill_md` from `src/core/validator.ts`
(the modular `SkillValidator` that takes a `mode` option): path-format
errors, then frontmatter-structure errors (early return), then the
multiline warning, name-format errors, hard-limit errors, description
errors and warnings, the explicit-trigger warning, phrasing warnings,
alignment warnings, and content errors/warnings.  The structured-validation
bookkeeping (which produces no diagnostics) is elided. -/
def validate_skill_md (path : Str) (fs : SkillFS) (mode : VMode) : SmdOut :=
  match fs_lookup fs (str "SKILL.md") with
  | none => ⟨[err_mark (str "SKILL.md file not found")], [], 0, 0⟩
  | some content =>
    let pf := validate_path_formats content
    let e_path := pf.2.map err_mark
    let fmv := validate_frontmatter_structure content
    if !fmv.valid then
      ⟨e_path ++
        (match fmv.parse_error with
         | some e => [err_mark e]
         | none => []) ++
        fmv.missing_fields.map (fun f =>
          err_mark (str "SKILL.md frontmatter missing '" ++ f ++ str "' field")),
       [], 0, 0⟩
    else
      let fd := extract_frontmatter content
      match fd.fm_name, fd.fm_description with
      | some name, some desc =>
        if name.isEmpty || desc.isEmpty then
          ⟨e_path ++
            [err_mark (str "Failed to extract name or description from frontmatter")],
           [], 0, 0⟩
        else
          let w_multi :=
            if fd.description_is_multiline then
              [warn_mark (str "Multi-line description detected. Claude Code cannot recognize skills with multi-line descriptions.")]
            else []
          let nf := validate_name_format name (js_basename path)
          let e_name := nf.errors.map err_mark
          let hl := validate_hard_limits name desc
          let e_hl :=
            (match hl.1 with
             | some e => [err_mark e]
             | none => []) ++
            (match hl.2 with
             | some e => [err_mark e]
             | none => [])
          let dv := validate_description_content desc
          let e_desc := dv.errors.map (fun p => err_mark p.2)
          let w_desc := dv.warnings.map (fun p => warn_mark p.2)
          let ta := analyze_trigger_phrase desc
          let w_trig :=
            if !ta.has_explicit_trigger then [warn_mark explicit_trigger_warning]
            else []
          let up := analyze_user_phrasing desc
          let w_phras := up.2.map (fun p => warn_mark p.2)
          let av := analyze_alignment desc fd.body
          let w_align := av.warnings.map warn_mark
          let cv := validate_content fd.body mode
          let e_cont := cv.errors.map (fun p => err_mark p.2)
          let w_cont := cv.warnings.map (fun p => warn_mark p.2)
          ⟨e_path ++ e_name ++ e_hl ++ e_desc ++ e_cont,
           w_multi ++ w_desc ++ w_trig ++ w_phras ++ w_align ++ w_cont,
           cv.stats.word_count, cv.stats.line_count⟩
      | _, _ =>
        ⟨e_path ++
          [err_mark (str "Failed to extract name or description from frontmatter")],
         [], 0, 0⟩

/-- `ValidationResult` from `src/types.ts`: ordered error and warning
lists, the validity flag, and the mode-dependent progressive-disclosure
flags of the structured validation. -/
structure ValidationResult where
  errors : List Str
  warnings : List Str
  is_valid : Bool
  exceeds_line_limit : Bool
  exceeds_word_limit : Bool
deriving Repr

/-- `SkillValidator.validate_all` from `src/core/validator.ts`: directory
check (early return on failure), `validate_skill_md`, then the references,
scripts and assets checks; all diagnostics are accumulated, and
`is_valid := errors.length === 0`.  The `exceeds_*` flags use the
mode-specific hard limits (loose 500/5000, lenient 150/2000, otherwise
50/1000). -/
def validate_all (path : Str) (fs : SkillFS) (mode : VMode) : ValidationResult :=
  match validate_directory path fs with
  | e :: es =>
    { errors := (e :: es).map err_mark, warnings := [], is_valid := false,
      exceeds_line_limit := false, exceeds_word_limit := false }
  | [] =>
    let smd := validate_skill_md path fs mode
    let rf := validate_references fs
    let sw := validate_scripts fs
    let aw := validate_assets fs
    let errors := smd.errors ++ rf.errors.map err_mark
    let warnings := smd.warnings ++ rf.warnings.map warn_mark ++
      sw.map warn_mark ++ aw.map warn_mark
    let line_limit : Nat :=
      match mode with
      | .loose => 500
      | .lenient => 150
      | .strict => 50
    let word_limit : Nat :=
      match mode with
      | .loose => 5000
      | .lenient => 2000
      | .strict => 1000
    { errors := errors, warnings := warnings, is_valid := errors.isEmpty,
      exceeds_line_limit := decide (smd.lc > line_limit),
      exceeds_word_limit := decide (smd.wc > word_limit) }

/-! ## Unfolding lemmas for the nesting traversal -/

lemma crn_visited (fs : SkillFS) (v : List Str) (f : Str)
    (h : v.contains f = true) :
    check_reference_nesting fs v f = (0, []) := by
  rw [check_reference_nesting.eq_def]
  exact dif_pos h

lemma crn_missing (fs : SkillFS) (v : List Str) (f : Str)
    (h1 : v.contains f = false) (h2 : fs_lookup fs f = none) :
    check_reference_nesting fs v f = (0, []) := by
  rw [check_reference_nesting.eq_def]
  rw [dif_neg (by rw [h1]; simp)]
  split
  · rfl
  · next content heq => rw [h2] at heq; cases heq

lemma crn_leaf (fs : SkillFS) (v : List Str) (f c : Str)
    (h1 : v.contains f = false) (h2 : fs_lookup fs f = some c)
    (h3 : content_refs c = []) :
    check_reference_nesting fs v f = (1, []) := by
  rw [check_reference_nesting.eq_def]
  rw [dif_neg (by rw [h1]; simp)]
  split
  · next heq => rw [h2] at heq; cases heq
  · next content heq =>
      rw [h2] at heq
      injection heq with hc
      subst hc
      simp [h3]

lemma crn_node (fs : SkillFS) (v : List Str) (f c : Str) (r : Str) (rs : List Str)
    (h1 : v.contains f = false) (h2 : fs_lookup fs f = some c)
    (h3 : content_refs c = r :: rs) :
    check_reference_nesting fs v f =
      ((r :: rs).foldl
        (fun md q =>
          max md (1 + (check_reference_nesting fs (f :: v) q).1)) 1,
       r :: rs) := by
  rw [check_reference_nesting.eq_def]
  rw [dif_neg (by rw [h1]; simp)]
  split
  · next heq => rw [h2] at heq; cases heq
  · next content heq =>
      rw [h2] at heq
      injection heq with hc
      subst hc
      simp [h3]

lemma crn_single (fs : SkillFS) (v : List Str) (f c r : Str)
    (h1 : v.contains f = false) (h2 : fs_lookup fs f = some c)
    (h3 : content_refs c = [r]) :
    check_reference_nesting fs v f =
      (max 1 (1 + (check_reference_nesting fs (f :: v) r).1), [r]) := by
  rw [crn_node fs v f c r [] h1 h2 h3]
  simp [List.foldl]

lemma foldl_max_one_add (g : Str → Nat) (l : List Str) :
    ∀ a : Nat,
      l.foldl (fun m x => max m (1 + g x)) (1 + a) =
        1 + l.foldl (fun m x => max m (g x)) a := by
  induction l with
  | nil => intro a; rfl
  | cons x xs ih =>
    intro a
    simp only [List.foldl]
    have h : max (1 + a) (1 + g x) = 1 + max a (g x) := by omega
    rw [h, ih]

/-! ## The reference graphs of the depth scenarios -/

/-- The path `references/a.md`. -/
def ref_a : Str := str "references/a.md"

/-- The path `references/b.md`. -/
def ref_b : Str := str "references/b.md"

/-- The path `references/c.md`. -/
def ref_c : Str := str "references/c.md"

/-- The path `references/d.md`. -/
def ref_d : Str := str "references/d.md"

/-- The acyclic chain A→B→C→D: each file links to the next, `d.md` is a
leaf. -/
def fsChain : SkillFS :=
  { dir_state := DirState.ok,
    files := [(ref_a, str "See [B](references/b.md)"),
              (ref_b, str "See [C](references/c.md)"),
              (ref_c, str "See [D](references/d.md)"),
              (ref_d, str "leaf content")],
    ref_listing := none, scripts_listing := none, assets_listing := none }

/-- The two-cycle A→B→A. -/
def fsCyc : SkillFS :=
  { dir_state := DirState.ok,
    files := [(ref_a, str "See [B](references/b.md)"),
              (ref_b, str "See [A](references/a.md)")],
    ref_listing := none, scripts_listing := none, assets_listing := none }

/-- C3: in the acyclic reference chain A→B→C→D (where D has no outbound
reference links) the nesting-depth computation yields depth(A) = 4,
depth(B) = 3, depth(C) = 2, depth(D) = 1; in general a file with no
outbound links has depth 1, and a file with links has depth 1 plus the
maximum of its link targets' depths (each computed with the visited set
extended by the current file). -/
theorem c3_reference_chain_depths :
    ((check_reference_nesting fsChain [] ref_a).1 = 4 ∧
     (check_reference_nesting fsChain [] ref_b).1 = 3 ∧
     (check_reference_nesting fsChain [] ref_c).1 = 2 ∧
     (check_reference_nesting fsChain [] ref_d).1 = 1) ∧
    (∀ (fs : SkillFS) (v : List Str) (f c : Str),
      v.contains f = false → fs_lookup fs f = some c → content_refs c = [] →
      (check_reference_nesting fs v f).1 = 1) ∧
    (∀ (fs : SkillFS) (v : List Str) (f c : Str),
      v.contains f = false → fs_lookup fs f = some c → content_refs c ≠ [] →
      (check_reference_nesting fs v f).1 =
        1 + (content_refs c).foldl
          (fun m r => max m (check_reference_nesting fs (f :: v) r).1) 0) := by
  refine ⟨⟨?_, ?_, ?_, ?_⟩, ?_, ?_⟩
  · have hd : check_reference_nesting fsChain [ref_c, ref_b, ref_a] ref_d = (1, []) :=
      crn_leaf _ _ _ (str "leaf content") (by decide) (by decide) (by decide)
    have hc : check_reference_nesting fsChain [ref_b, ref_a] ref_c = (2, [ref_d]) := by
      rw [crn_single fsChain [ref_b, ref_a] ref_c (str "See [D](references/d.md)") ref_d
        (by decide) (by decide) (by decide), hd]
      rfl
    have hb : check_reference_nesting fsChain [ref_a] ref_b = (3, [ref_c]) := by
      rw [crn_single fsChain [ref_a] ref_b (str "See [C](references/c.md)") ref_c
        (by decide) (by decide) (by decide), hc]
      rfl
    have ha : check_reference_nesting fsChain [] ref_a = (4, [ref_b]) := by
      rw [crn_single fsChain [] ref_a (str "See [B](references/b.md)") ref_b
        (by decide) (by decide) (by decide), hb]
      rfl
    rw [ha]
  · have hd : check_reference_nesting fsChain [ref_c, ref_b] ref_d = (1, []) :=
      crn_leaf _ _ _ (str "leaf content") (by decide) (by decide) (by decide)
    have hc : check_reference_nesting fsChain [ref_b] ref_c = (2, [ref_d]) := by
      rw [crn_single fsChain [ref_b] ref_c (str "See [D](references/d.md)") ref_d
        (by decide) (by decide) (by decide), hd]
      rfl
    have hb : check_reference_nesting fsChain [] ref_b = (3, [ref_c]) := by
      rw [crn_single fsChain [] ref_b (str "See [C](references/c.md)") ref_c
        (by decide) (by decide) (by decide), hc]
      rfl
    rw [hb]
  · have hd : check_reference_nesting fsChain [ref_c] ref_d = (1, []) :=
      crn_leaf _ _ _ (str "leaf content") (by decide) (by decide) (by decide)
    have hc : check_reference_nesting fsChain [] ref_c = (2, [ref_d]) := by
      rw [crn_single fsChain [] ref_c (str "See [D](references/d.md)") ref_d
        (by decide) (by decide) (by decide), hd]
      rfl
    rw [hc]
  · have hd : check_reference_nesting fsChain [] ref_d = (1, []) :=
      crn_leaf _ _ _ (str "leaf content") (by decide) (by decide) (by decide)
    rw [hd]
  · intro fs v f c h1 h2 h3
    rw [crn_leaf fs v f c h1 h2 h3]
  · intro fs v f c h1 h2 h3
    rcases hr : content_refs c with _ | ⟨r, rs⟩
    · exact absurd hr h3
    · rw [crn_node fs v f c r rs h1 h2 hr]
      show (r :: rs).foldl
          (fun md q => max md (1 + (check_reference_nesting fs (f :: v) q).1)) 1 = _
      have := foldl_max_one_add
        (fun q => (check_reference_nesting fs (f :: v) q).1) (r :: rs) 0
      simpa using this

/-- Witness for C3: the general leaf clause applied to the concrete leaf
`references/d.md` of the chain. -/
theorem c3_reference_chain_depths_witness :
    (check_reference_nesting fsChain [] ref_d).1 = 1 :=
  c3_reference_chain_depths.2.1 fsChain [] ref_d (str "leaf content")
    (by decide) (by decide) (by decide)

/-- C4: the nesting-depth computation is cycle-safe: it is a total function
(its Lean embedding is accepted by the termination checker with the measure
"on-disk paths not yet visited"), a path already on the current traversal
contributes depth 0 instead of recursing, and on the cyclic graph A→B→A the
computation returns the finite depth 2 for A. -/
theorem c4_cycle_protection :
    (∀ (fs : SkillFS) (v : List Str) (f : Str), v.contains f = true →
      check_reference_nesting fs v f = (0, [])) ∧
    (check_reference_nesting fsCyc [] ref_a).1 = 2 := by
  refine ⟨fun fs v f h => crn_visited fs v f h, ?_⟩
  have h0 : check_reference_nesting fsCyc [ref_b, ref_a] ref_a = (0, []) :=
    crn_visited _ _ _ (by decide)
  have hb : check_reference_nesting fsCyc [ref_a] ref_b = (1, [ref_a]) := by
    rw [crn_single fsCyc [ref_a] ref_b (str "See [A](references/a.md)") ref_a
      (by decide) (by decide) (by decide), h0]
    rfl
  have ha : check_reference_nesting fsCyc [] ref_a = (2, [ref_b]) := by
    rw [crn_single fsCyc [] ref_a (str "See [B](references/b.md)") ref_b
      (by decide) (by decide) (by decide), hb]
    rfl
  rw [ha]

/-- Witness for C4: the revisit clause applied at a concrete revisited
path. -/
theorem c4_cycle_protection_witness :
    check_reference_nesting fsCyc [ref_a] ref_a = (0, []) :=
  c4_cycle_protection.1 fsCyc [ref_a] ref_a (by decide)

/-! ## HTML-comment stripping lemmas (claim C2) -/

lemma str_open : str "<!--" = ['<', '!', '-', '-'] := rfl

lemma str_close : str "-->" = ['-', '-', '>'] := rfl

lemma js_space_ne_dash {c : Char} (h : js_space c = true) : c ≠ '-' := by
  intro he
  subst he
  exact absurd h (by decide)

/-- Text with no `<!--` is left unchanged by the comment stripper. -/
lemma strip_fuel_no_open :
    ∀ (f : Nat) (s : Str), s.length ≤ f →
      contains_sub (str "<!--") s = false → strip_html_fuel f s = s := by
  intro f
  induction f with
  | zero => intro s _ _; rfl
  | succ f ih =>
    intro s hlen hna
    match s with
    | [] => rfl
    | c :: cs =>
      rw [contains_sub] at hna
      rcases Bool.or_eq_false_iff.mp hna with ⟨hp, htl⟩
      simp only [strip_html_fuel, hp, Bool.false_eq_true, if_false]
      rw [ih cs (by simp at hlen; omega) htl]

/-- The first `-->` after a whitespace-only comment body is the inserted
terminator. -/
lemma drop_past_close_ws :
    ∀ (w b : Str), (∀ c ∈ w, js_space c = true) →
      drop_past (str "-->") (w ++ (str "-->" ++ b)) = some b := by
  intro w
  induction w with
  | nil =>
    intro b _
    rw [List.nil_append, str_close]
    simp only [List.cons_append, List.nil_append]
    rw [drop_past.eq_def]
    simp [List.isPrefixOf]
  | cons c w' ih =>
    intro b hw
    have hc : c ≠ '-' := js_space_ne_dash (hw c (List.mem_cons_self c w'))
    rw [List.cons_append, drop_past]
    have hpre : (str "-->").isPrefixOf (c :: (w' ++ (str "-->" ++ b))) = false := by
      rw [str_close]
      simp only [List.isPrefixOf, Bool.and_eq_false_iff]
      left
      simp [beq_iff_eq]
      intro he
      exact hc he.symm
    simp only [hpre, Bool.false_eq_true, if_false]
    exact ih b (fun d hd => hw d (List.mem_cons_of_mem c hd))

/-- Inserting a whitespace-only HTML comment into text that contains no
`<!--` opener: the stripper removes exactly the inserted comment. -/
lemma strip_fuel_insert :
    ∀ (a : Str) (f : Nat) (w b : Str),
      (a ++ ((str "<!--") ++ (w ++ ((str "-->") ++ b)))).length ≤ f →
      (∀ c ∈ w, js_space c = true) →
      contains_sub (str "<!--") (a ++ b) = false →
      strip_html_fuel f (a ++ ((str "<!--") ++ (w ++ ((str "-->") ++ b)))) =
        a ++ b := by
  intro a
  induction a with
  | nil =>
    intro f w b hlen hw hna
    match f with
    | 0 => simp [str_open, List.length_append] at hlen
    | f + 1 =>
      rw [List.nil_append] at hlen ⊢
      rw [List.nil_append] at hna
      rw [str_open, List.cons_append, List.cons_append, List.cons_append,
        List.cons_append]
      rw [strip_html_fuel]
      have hpre : (str "<!--").isPrefixOf
          ('<' :: '!' :: '-' :: '-' :: ([] ++ (w ++ (str "-->" ++ b)))) = true := by
        rw [str_open]
        simp [List.isPrefixOf]
      rw [if_pos hpre]
      have hdrop : ('<' :: '!' :: '-' :: '-' :: ([] ++ (w ++ (str "-->" ++ b)))).drop 4 =
          w ++ (str "-->" ++ b) := by simp
      rw [hdrop, drop_past_close_ws w b hw]
      apply strip_fuel_no_open f b _ hna
      rw [str_open] at hlen
      simp only [List.nil_append, List.length_cons, List.length_append] at hlen ⊢
      rw [str_close] at hlen
      simp at hlen
      omega
  | cons x a' ih =>
    intro f w b hlen hw hna
    match f with
    | 0 => simp [List.length_append] at hlen
    | f + 1 =>
      rw [List.cons_append] at hna
      rw [contains_sub] at hna
      rcases Bool.or_eq_false_iff.mp hna with ⟨hp, htl⟩
      rw [List.cons_append, strip_html_fuel]
      have hpre : (str "<!--").isPrefixOf
          (x :: (a' ++ ((str "<!--") ++ (w ++ ((str "-->") ++ b))))) = false := by
        rcases a' with _ | ⟨y, a''⟩
        · rw [str_open]
          simp [List.isPrefixOf]
        rcases a'' with _ | ⟨z, a3⟩
        · rw [str_open]
          simp [List.isPrefixOf]
        rcases a3 with _ | ⟨u, a4⟩
        · rw [str_open]
          simp [List.isPrefixOf]
        · -- first four characters all lie inside `a`; a true prefix here
          -- would contradict `hp`
          simp only [List.cons_append]
          cases hcon : (str "<!--").isPrefixOf
              (x :: y :: z :: u :: (a4 ++ ((str "<!--") ++ (w ++ ((str "-->") ++ b))))) with
          | false => rfl
          | true =>
            exfalso
            rw [str_open] at hcon
            simp only [List.isPrefixOf, Bool.and_eq_true, beq_iff_eq] at hcon
            have hq : (str "<!--").isPrefixOf (x :: (y :: z :: u :: a4 ++ b)) = true := by
              rw [str_open]
              simp only [List.cons_append, List.isPrefixOf, Bool.and_eq_true, beq_iff_eq]
              exact ⟨hcon.1, hcon.2.1, hcon.2.2.1, hcon.2.2.2.1, by simp⟩
            rw [hq] at hp
            cases hp
      rw [if_neg (by rw [hpre]; simp)]
      rw [ih f w b (by simp only [List.cons_append, List.length_cons] at hlen; omega) hw htl]
      rw [List.cons_append]

/-- C2 (amended): inserting a whitespace-only HTML comment leaves the
computed `line_count` unchanged (provided the surrounding text contains no
`<!--` opener that could merge with the insertion), because HTML comments
are stripped before lines are counted; `word_count` is not invariant (see
the counterexample), because the body is not stripped before words are
counted. -/
theorem c2_line_count_invariant_amended :
    ∀ (a w b : Str), (∀ c ∈ w, js_space c = true) →
      contains_sub (str "<!--") (a ++ b) = false →
      line_count_metric (a ++ ((str "<!--") ++ (w ++ ((str "-->") ++ b)))) =
        line_count_metric (a ++ b) := by
  intro a w b hw hna
  unfold line_count_metric strip_html_comments
  rw [strip_fuel_insert a _ w b (le_refl _) hw hna]
  rw [strip_fuel_no_open _ _ (le_refl _) hna]

/-- Counterexample for C2: inserting the whitespace-only comment
`<!-- -->` into `hello world ` changes the computed `word_count` (comments
are stripped only before line counting, not before word counting), and an
insertion adjacent to an unterminated `<!--` changes even the
`line_count`. -/
theorem c2_counterexample :
    word_count_metric (str "hello world <!-- -->") ≠
      word_count_metric (str "hello world ") ∧
    line_count_metric (str "<!-- x\n<!-- -->y") ≠
      line_count_metric (str "<!-- x\ny") := by
  constructor <;> decide

/-- Witness for C2 (amended) at a concrete insertion point. -/
theorem c2_line_count_invariant_amended_witness :
    line_count_metric ((str "hello\n") ++ ((str "<!--") ++ (([' ']) ++ ((str "-->") ++ (str "world"))))) =
      line_count_metric ((str "hello\n") ++ (str "world")) :=
  c2_line_count_invariant_amended (str "hello\n") [' '] (str "world")
    (by decide) (by decide)

/-! ## Keyword alignment (claim C5) -/

lemma ratio_lt_iff (o d num den : Nat) (hden : 0 < den) :
    (ratio_lt o d num den = true ↔
      (if d > 0 then (o : ℚ) / (d : ℚ) else 0) < (num : ℚ) / (den : ℚ)) := by
  unfold ratio_lt
  by_cases hd : d = 0
  · subst hd
    rw [if_pos rfl, decide_eq_true_iff]
    rw [if_neg (by omega)]
    rw [lt_div_iff₀ (by exact_mod_cast hden)]
    simp
  · rw [if_neg hd, decide_eq_true_iff]
    rw [if_pos (by omega)]
    rw [div_lt_div_iff₀ (by exact_mod_cast Nat.pos_of_ne_zero hd)
      (by exact_mod_cast hden)]
    constructor
    · intro h
      have h2 : ((den * o : Nat) : ℚ) < ((num * d : Nat) : ℚ) := by exact_mod_cast h
      push_cast at h2
      linarith
    · intro h
      have h2 : ((den * o : Nat) : ℚ) < ((num * d : Nat) : ℚ) := by
        push_cast
        linarith
      exact_mod_cast h2

/-- C5: the keyword-alignment overlap ratio equals
`|description_keywords ∩ content_keywords| / |description_keywords|` (0 when
the description has no keywords); severity is evaluated only when the
description has more than 5 keywords: ratio < 0.2 is critical,
0.2 ≤ ratio < 0.3 is moderate, otherwise good; the low-overlap warning is
emitted exactly when severity is moderate or critical, and a description
with at most 5 keywords yields severity good and no warning. -/
theorem c5_keyword_alignment (description body : Str) :
    (overlap_ratio_q description body =
      if (extract_keywords description).length > 0 then
        (((extract_keywords description).filter
            (fun k => (extract_keywords body).contains k)).length : ℚ) /
          ((extract_keywords description).length : ℚ)
      else 0) ∧
    ((analyze_alignment description body).severity = Severity.critical ↔
      (extract_keywords description).length > 5 ∧
        overlap_ratio_q description body < 1 / 5) ∧
    ((analyze_alignment description body).severity = Severity.moderate ↔
      (extract_keywords description).length > 5 ∧
        1 / 5 ≤ overlap_ratio_q description body ∧
        overlap_ratio_q description body < 3 / 10) ∧
    ((analyze_alignment description body).warnings ≠ [] ↔
      ((analyze_alignment description body).severity = Severity.moderate ∨
       (analyze_alignment description body).severity = Severity.critical)) ∧
    ((extract_keywords description).length ≤ 5 →
      (analyze_alignment description body).severity = Severity.good ∧
      (analyze_alignment description body).warnings = []) := by
  refine ⟨rfl, ?_⟩
  have hq : overlap_ratio_q description body =
      (if (extract_keywords description).length > 0 then
        (((extract_keywords description).filter
            (fun k => (extract_keywords body).contains k)).length : ℚ) /
          ((extract_keywords description).length : ℚ)
      else 0) := rfl
  have hb1 : ((ratio_lt
        ((extract_keywords description).filter
          (fun k => (extract_keywords body).contains k)).length
        (extract_keywords description).length 1 5 &&
      decide ((extract_keywords description).length > 5)) = true) ↔
      (overlap_ratio_q description body < 1 / 5 ∧
        (extract_keywords description).length > 5) := by
    rw [Bool.and_eq_true, decide_eq_true_iff,
      ratio_lt_iff _ _ 1 5 (by norm_num), ← hq]
    norm_num
  have hb2 : ((ratio_lt
        ((extract_keywords description).filter
          (fun k => (extract_keywords body).contains k)).length
        (extract_keywords description).length 3 10 &&
      decide ((extract_keywords description).length > 5)) = true) ↔
      (overlap_ratio_q description body < 3 / 10 ∧
        (extract_keywords description).length > 5) := by
    rw [Bool.and_eq_true, decide_eq_true_iff,
      ratio_lt_iff _ _ 3 10 (by norm_num), ← hq]
    norm_num
  have hsev : (analyze_alignment description body).severity =
      (if (overlap_ratio_q description body < 1 / 5 ∧
          (extract_keywords description).length > 5) then Severity.critical
       else if (overlap_ratio_q description body < 3 / 10 ∧
          (extract_keywords description).length > 5) then Severity.moderate
       else Severity.good) := by
    show (if _ = true then _ else _) = _
    by_cases p1 : (overlap_ratio_q description body < 1 / 5 ∧
        (extract_keywords description).length > 5)
    · rw [if_pos (hb1.mpr p1), if_pos p1]
    · rw [if_neg (fun h => p1 (hb1.mp h)), if_neg p1]
      by_cases p2 : (overlap_ratio_q description body < 3 / 10 ∧
          (extract_keywords description).length > 5)
      · rw [if_pos (hb2.mpr p2), if_pos p2]
      · rw [if_neg (fun h => p2 (hb2.mp h)), if_neg p2]
  have hwarn : ((analyze_alignment description body).warnings ≠ [] ↔
      (overlap_ratio_q description body < 3 / 10 ∧
        (extract_keywords description).length > 5)) := by
    show (if _ = true then _ else _) ≠ ([] : List Str) ↔ _
    by_cases p2 : (overlap_ratio_q description body < 3 / 10 ∧
        (extract_keywords description).length > 5)
    · rw [if_pos (hb2.mpr p2)]
      simp [p2]
    · rw [if_neg (fun h => p2 (hb2.mp h))]
      simp [p2]
  have himp : overlap_ratio_q description body < 1 / 5 →
      overlap_ratio_q description body < 3 / 10 := by
    intro h
    have h2 : (1 : ℚ) / 5 < 3 / 10 := by norm_num
    linarith
  refine ⟨?_, ?_, ?_, ?_⟩
  · rw [hsev]
    by_cases p1 : (overlap_ratio_q description body < 1 / 5 ∧
        (extract_keywords description).length > 5)
    · rw [if_pos p1]
      exact ⟨fun _ => ⟨p1.2, p1.1⟩, fun _ => rfl⟩
    · rw [if_neg p1]
      by_cases p2 : (overlap_ratio_q description body < 3 / 10 ∧
          (extract_keywords description).length > 5)
      · rw [if_pos p2]
        exact ⟨fun h => absurd h (by decide),
               fun hc => absurd ⟨hc.2, hc.1⟩ p1⟩
      · rw [if_neg p2]
        exact ⟨fun h => absurd h (by decide),
               fun hc => absurd ⟨hc.2, hc.1⟩ p1⟩
  · rw [hsev]
    by_cases p1 : (overlap_ratio_q description body < 1 / 5 ∧
        (extract_keywords description).length > 5)
    · rw [if_pos p1]
      refine ⟨fun h => absurd h (by decide), ?_⟩
      rintro ⟨-, hge, -⟩
      exact absurd (lt_of_lt_of_le p1.1 hge) (lt_irrefl _)
    · rw [if_neg p1]
      by_cases p2 : (overlap_ratio_q description body < 3 / 10 ∧
          (extract_keywords description).length > 5)
      · rw [if_pos p2]
        refine ⟨fun _ => ⟨p2.2, ?_, p2.1⟩, fun _ => rfl⟩
        exact not_lt.mp (fun hr => p1 ⟨hr, p2.2⟩)
      · rw [if_neg p2]
        exact ⟨fun h => absurd h (by decide),
               fun hc => absurd ⟨hc.2.2, hc.1⟩ p2⟩
  · rw [hwarn, hsev]
    by_cases p1 : (overlap_ratio_q description body < 1 / 5 ∧
        (extract_keywords description).length > 5)
    · rw [if_pos p1]
      exact iff_of_true ⟨himp p1.1, p1.2⟩ (Or.inr rfl)
    · rw [if_neg p1]
      by_cases p2 : (overlap_ratio_q description body < 3 / 10 ∧
          (extract_keywords description).length > 5)
      · rw [if_pos p2]
        exact iff_of_true p2 (Or.inl rfl)
      · rw [if_neg p2]
        refine iff_of_false p2 ?_
        rintro (h | h) <;> exact absurd h (by decide)
  · intro hle
    have h1 : ¬ (overlap_ratio_q description body < 1 / 5 ∧
        (extract_keywords description).length > 5) := by
      rintro ⟨-, hgt⟩; omega
    have h2 : ¬ (overlap_ratio_q description body < 3 / 10 ∧
        (extract_keywords description).length > 5) := by
      rintro ⟨-, hgt⟩; omega
    constructor
    · rw [hsev, if_neg h1, if_neg h2]
    · rcases hw : (analyze_alignment description body).warnings with _ | ⟨m, ms⟩
      · rfl
      · exfalso
        have hne : (analyze_alignment description body).warnings ≠ [] := by
          rw [hw]; simp
        exact h2 (hwarn.mp hne)

/-- Witness for C5: the specification's own example description
`Validates SQLite contacts queries` has only 4 keywords, so the at-most-5
clause applies and yields severity good with no warning. -/
theorem c5_keyword_alignment_witness :
    (analyze_alignment (str "Validates SQLite contacts queries")
      (str "This validates sqlite queries against contacts data.")).severity =
        Severity.good ∧
    (analyze_alignment (str "Validates SQLite contacts queries")
      (str "This validates sqlite queries against contacts data.")).warnings = [] :=
  (c5_keyword_alignment (str "Validates SQLite contacts queries")
    (str "This validates sqlite queries against contacts data.")).2.2.2.2
    (by decide)

/-! ## Mode-dependent size thresholds (claim C1) -/

lemma eq_of_mem_if_singleton {α : Type} {c : Prop} [Decidable c] {x y : α}
    (h : x ∈ (if c then [y] else [])) : x = y := by
  by_cases hc : c
  · rw [if_pos hc] at h
    simpa using h
  · rw [if_neg hc] at h
    cases h

lemma word_diag_err_tag {t : CTag} {m : Str} {wc : Nat} {b : Band}
    (h : (t, m) ∈ word_diag_errors wc b) : t = CTag.word_count := by
  unfold word_diag_errors at h
  have he := eq_of_mem_if_singleton h
  cases he
  rfl

lemma word_diag_warn_tag {t : CTag} {m : Str} {wc : Nat} {b : Band}
    (h : (t, m) ∈ word_diag_warnings wc b) : t = CTag.word_count := by
  unfold word_diag_warnings at h
  by_cases h1 : wc > b.hardMax
  · rw [if_pos h1] at h
    cases h
  · rw [if_neg h1] at h
    have he := eq_of_mem_if_singleton h
    cases he
    rfl

lemma line_diag_err_tag {t : CTag} {m : Str} {lc : Nat} {b : Band}
    (h : (t, m) ∈ line_diag_errors lc b) : t = CTag.line_count := by
  unfold line_diag_errors at h
  have he := eq_of_mem_if_singleton h
  cases he
  rfl

lemma line_diag_warn_tag {t : CTag} {m : Str} {lc : Nat} {b : Band}
    (h : (t, m) ∈ line_diag_warnings lc b) : t = CTag.line_count := by
  unfold line_diag_warnings at h
  by_cases h1 : lc > b.hardMax
  · rw [if_pos h1] at h
    cases h
  · rw [if_neg h1] at h
    have he := eq_of_mem_if_singleton h
    cases he
    rfl

lemma struct_no_size_tag {m : Str} {tag : CTag} (body : Str) (lc : Nat) (ll : Band)
    (htag : tag = CTag.word_count ∨ tag = CTag.line_count) :
    (tag, m) ∉ structure_warnings body lc ll := by
  intro hmem
  unfold structure_warnings at hmem
  simp only [List.mem_append] at hmem
  rcases htag with rfl | rfl <;>
    rcases hmem with ((((((h | h) | h) | h) | h) | h) | h) <;>
      (have he := eq_of_mem_if_singleton h; simp at he)

lemma vc_errors_eq (body : Str) (mode : VMode) :
    (validate_content body mode).errors =
      word_diag_errors (moded_word_count body) (word_limits mode) ++
        line_diag_errors (moded_line_count body) (line_limits mode) := rfl

lemma vc_warnings_eq (body : Str) (mode : VMode) :
    (validate_content body mode).warnings =
      word_diag_warnings (moded_word_count body) (word_limits mode) ++
        line_diag_warnings (moded_line_count body) (line_limits mode) ++
        structure_warnings body (moded_line_count body) (line_limits mode) := rfl

lemma vc_word_error_iff (body : Str) (mode : VMode) :
    (∃ m, (CTag.word_count, m) ∈ (validate_content body mode).errors) ↔
      moded_word_count body > (word_limits mode).hardMax := by
  rw [vc_errors_eq]
  constructor
  · rintro ⟨m, hm⟩
    rcases List.mem_append.mp hm with h | h
    · by_cases hc : moded_word_count body > (word_limits mode).hardMax
      · exact hc
      · unfold word_diag_errors at h
        rw [if_neg hc] at h
        cases h
    · exact absurd (line_diag_err_tag h) (by decide)
  · intro hc
    have hmem : (CTag.word_count,
        str "SKILL.md body has " ++ nat_str (moded_word_count body) ++
        str " words (MAX: " ++ nat_str (word_limits mode).hardMax ++ str ")") ∈
        word_diag_errors (moded_word_count body) (word_limits mode) := by
      unfold word_diag_errors
      rw [if_pos hc]
      exact List.mem_cons_self _ _
    exact ⟨_, List.mem_append_left _ hmem⟩

lemma vc_line_error_iff (body : Str) (mode : VMode) :
    (∃ m, (CTag.line_count, m) ∈ (validate_content body mode).errors) ↔
      moded_line_count body > (line_limits mode).hardMax := by
  rw [vc_errors_eq]
  constructor
  · rintro ⟨m, hm⟩
    rcases List.mem_append.mp hm with h | h
    · exact absurd (word_diag_err_tag h) (by decide)
    · by_cases hc : moded_line_count body > (line_limits mode).hardMax
      · exact hc
      · unfold line_diag_errors at h
        rw [if_neg hc] at h
        cases h
  · intro hc
    have hmem : (CTag.line_count,
        str "SKILL.md body is " ++ nat_str (moded_line_count body) ++
        str " lines (MAX: " ++ nat_str (line_limits mode).hardMax ++ str ")") ∈
        line_diag_errors (moded_line_count body) (line_limits mode) := by
      unfold line_diag_errors
      rw [if_pos hc]
      exact List.mem_cons_self _ _
    exact ⟨_, List.mem_append_right _ hmem⟩

lemma vc_word_warning_iff (body : Str) (mode : VMode) :
    (∃ m, (CTag.word_count, m) ∈ (validate_content body mode).warnings) ↔
      ((word_limits mode).good < moded_word_count body ∧
        moded_word_count body ≤ (word_limits mode).hardMax) := by
  rw [vc_warnings_eq]
  constructor
  · rintro ⟨m, hm⟩
    rcases List.mem_append.mp hm with h | h
    · rcases List.mem_append.mp h with h2 | h2
      · unfold word_diag_warnings at h2
        by_cases hc1 : moded_word_count body > (word_limits mode).hardMax
        · rw [if_pos hc1] at h2
          cases h2
        · rw [if_neg hc1] at h2
          by_cases hc2 : moded_word_count body > (word_limits mode).good
          · exact ⟨hc2, by omega⟩
          · rw [if_neg hc2] at h2
            cases h2
      · exact absurd (line_diag_warn_tag h2) (by decide)
    · exact absurd h (struct_no_size_tag body _ _ (Or.inl rfl))
  · rintro ⟨hg, hm⟩
    have hmem : (CTag.word_count,
        str "SKILL.md body has " ++ nat_str (moded_word_count body) ++
        str " words (recommended: <" ++ nat_str (word_limits mode).good ++
        str ", max: " ++ nat_str (word_limits mode).hardMax ++ str ")") ∈
        word_diag_warnings (moded_word_count body) (word_limits mode) := by
      unfold word_diag_warnings
      rw [if_neg (by omega), if_pos hg]
      exact List.mem_cons_self _ _
    exact ⟨_, List.mem_append_left _ (List.mem_append_left _ hmem)⟩

lemma vc_line_warning_iff (body : Str) (mode : VMode) :
    (∃ m, (CTag.line_count, m) ∈ (validate_content body mode).warnings) ↔
      ((line_limits mode).good < moded_line_count body ∧
        moded_line_count body ≤ (line_limits mode).hardMax) := by
  rw [vc_warnings_eq]
  constructor
  · rintro ⟨m, hm⟩
    rcases List.mem_append.mp hm with h | h
    · rcases List.mem_append.mp h with h2 | h2
      · exact absurd (word_diag_warn_tag h2) (by decide)
      · unfold line_diag_warnings at h2
        by_cases hc1 : moded_line_count body > (line_limits mode).hardMax
        · rw [if_pos hc1] at h2
          cases h2
        · rw [if_neg hc1] at h2
          by_cases hc2 : moded_line_count body > (line_limits mode).good
          · exact ⟨hc2, by omega⟩
          · rw [if_neg hc2] at h2
            cases h2
    · exact absurd h (struct_no_size_tag body _ _ (Or.inr rfl))
  · rintro ⟨hg, hm⟩
    have hmem : (CTag.line_count,
        str "SKILL.md body is " ++ nat_str (moded_line_count body) ++
        str " lines (recommended: ~" ++ nat_str (line_limits mode).good ++
        str ", max: " ++ nat_str (line_limits mode).hardMax ++ str ")") ∈
        line_diag_warnings (moded_line_count body) (line_limits mode) := by
      unfold line_diag_warnings
      rw [if_neg (by omega), if_pos hg]
      exact List.mem_cons_self _ _
    exact ⟨_, List.mem_append_left _ (List.mem_append_right _ hmem)⟩

/-- The 1600-word body of the specification's threshold scenario: 1600
copies of `w `. -/
def body1600 : Str := (List.replicate 1600 (str "w ")).join

lemma body1600_chars {c : Char} (h : c ∈ body1600) : c = 'w' ∨ c = ' ' := by
  unfold body1600 at h
  rcases List.mem_join.mp h with ⟨l, hl, hc⟩
  have he := List.eq_of_mem_replicate hl
  subst he
  have hc2 : c ∈ ['w', ' '] := hc
  simp at hc2
  exact hc2

lemma contains_open_false_of_no_lt :
    ∀ s : Str, (∀ c ∈ s, c ≠ '<') → contains_sub (str "<!--") s = false := by
  intro s
  induction s with
  | nil => intro _; rfl
  | cons c cs ih =>
    intro hno
    rw [contains_sub]
    have h1 : (str "<!--").isPrefixOf (c :: cs) = false := by
      rw [str_open]
      simp only [List.isPrefixOf, Bool.and_eq_false_iff]
      left
      simp [beq_iff_eq]
      intro he
      exact hno c (List.mem_cons_self c cs) he.symm
    rw [h1, ih (fun d hd => hno d (List.mem_cons_of_mem c hd))]
    rfl

lemma strip_body1600 : strip_html_comments body1600 = body1600 :=
  strip_fuel_no_open _ _ (le_refl _)
    (contains_open_false_of_no_lt body1600
      (fun c hc => by rcases body1600_chars hc with rfl | rfl <;> decide))

lemma words_wrep : ∀ n : Nat,
    words_go [] ((List.replicate n (str "w ")).join) = List.replicate n ['w'] := by
  intro n
  induction n with
  | zero => rfl
  | succ k ih =>
    rw [List.replicate_succ]
    show words_go [] ('w' :: ' ' :: (List.replicate k (str "w ")).join) = _
    rw [words_go]
    rw [if_neg (by decide)]
    rw [words_go]
    rw [if_pos (by decide)]
    rw [if_neg (by decide)]
    rw [ih]
    rfl

lemma wc1600 : moded_word_count body1600 = 1600 := by
  unfold moded_word_count
  rw [strip_body1600]
  unfold body1600 count_words words
  rw [words_wrep 1600]
  exact List.length_replicate 1600 ['w']

/-- C1 (amended): for every body and mode, the mode-aware content
validator emits a word-count (resp. line-count) error exactly when the
(stripped) word count (resp. line count) exceeds the mode's max threshold,
and a warning exactly when it exceeds the mode's good threshold while
staying at most max (thresholds per the spec table); in particular a
1600-word body yields a word-count error in strict mode, and in loose mode
(good = 2000, max = 5000) it yields neither a word-count error nor a
word-count warning. -/
theorem c1_mode_thresholds :
    (∀ (body : Str) (mode : VMode),
      ((∃ m, (CTag.word_count, m) ∈ (validate_content body mode).errors) ↔
        moded_word_count body > (word_limits mode).hardMax) ∧
      ((∃ m, (CTag.word_count, m) ∈ (validate_content body mode).warnings) ↔
        ((word_limits mode).good < moded_word_count body ∧
          moded_word_count body ≤ (word_limits mode).hardMax)) ∧
      ((∃ m, (CTag.line_count, m) ∈ (validate_content body mode).errors) ↔
        moded_line_count body > (line_limits mode).hardMax) ∧
      ((∃ m, (CTag.line_count, m) ∈ (validate_content body mode).warnings) ↔
        ((line_limits mode).good < moded_line_count body ∧
          moded_line_count body ≤ (line_limits mode).hardMax))) ∧
    (∃ m, (CTag.word_count, m) ∈ (validate_content body1600 VMode.strict).errors) ∧
    (¬ ∃ m, (CTag.word_count, m) ∈ (validate_content body1600 VMode.loose).errors) ∧
    (¬ ∃ m, (CTag.word_count, m) ∈ (validate_content body1600 VMode.loose).warnings) := by
  refine ⟨fun body mode =>
    ⟨vc_word_error_iff body mode, vc_word_warning_iff body mode,
     vc_line_error_iff body mode, vc_line_warning_iff body mode⟩, ?_, ?_, ?_⟩
  · exact (vc_word_error_iff body1600 VMode.strict).mpr (by rw [wc1600]; decide)
  · intro h
    have hc := (vc_word_error_iff body1600 VMode.loose).mp h
    rw [wc1600] at hc
    exact absurd hc (by decide)
  · intro h
    have hc := (vc_word_warning_iff body1600 VMode.loose).mp h
    rw [wc1600] at hc
    exact absurd hc.1 (by decide)

/-! ## Orphaned reference files (claim C7) -/

lemma link_try_prefix {s t p rem : Str}
    (h : link_try s = some ((t, p), rem)) :
    (str "references/").isPrefixOf p = true := by
  simp only [link_try] at h
  split at h
  · next rest =>
    split at h
    · cases h
    · split at h
      · next after =>
        split at h
        · next rem2 =>
          split at h
          · next hcond =>
            injection h with h1
            injection h1 with h2
            injection h2 with h3 h4
            subst h4
            simp only [Bool.and_eq_true] at hcond
            exact hcond.1.1
          · cases h
        · cases h
      · cases h
  · cases h

lemma links_fuel_prefix :
    ∀ (fuel : Nat) (s : Str) (t p : Str),
      (t, p) ∈ links_fuel fuel s → (str "references/").isPrefixOf p = true := by
  intro fuel
  induction fuel with
  | zero => intro s t p h; cases h
  | succ f ih =>
    intro s t p h
    match s with
    | [] => cases h
    | c :: cs =>
      rw [links_fuel] at h
      rcases hlt : link_try (c :: cs) with _ | ⟨⟨t0, p0⟩, rem⟩
      · rw [hlt] at h
        exact ih cs t p h
      · rw [hlt] at h
        rcases List.mem_cons.mp h with he | hm
        · injection he with h1 h2
          subst h1
          subst h2
          exact link_try_prefix hlt
        · exact ih rem t p hm

lemma vr_links_prefix {fs : SkillFS} {t p : Str}
    (h : (t, p) ∈ vr_links fs) : (str "references/").isPrefixOf p = true := by
  unfold vr_links at h
  split at h
  · cases h
  · exact links_fuel_prefix _ _ t p h

lemma orphan_msg_cons (f : Str) :
    orphan_warning_msg f =
      'R' :: ((str "eference file '") ++ (f ++ str "' not mentioned in SKILL.md")) := rfl

lemma empty_msg_cons :
    str "references/ directory exists but is empty" =
      'r' :: str "eferences/ directory exists but is empty" := rfl

lemma orphan_not_in_empty (fs : SkillFS) (f : Str) :
    orphan_warning_msg f ∉ vr_empty_warns fs := by
  intro h
  unfold vr_empty_warns at h
  split at h
  · cases h
  · split at h
    · rcases List.mem_singleton.mp h with he
      rw [orphan_msg_cons, empty_msg_cons] at he
      injection he with h1 _
      exact absurd h1 (by decide)
    · cases h

lemma orphan_not_in_nesting (fs : SkillFS) (f : Str) :
    orphan_warning_msg f ∉ vr_nesting_warns fs := by
  intro h
  unfold vr_nesting_warns at h
  rcases List.mem_flatMap.mp h with ⟨l, hl, hmem⟩
  obtain ⟨t, p⟩ := l
  split at hmem
  · split at hmem
    · rcases List.mem_singleton.mp hmem with he
      have hpre := vr_links_prefix hl
      rcases (List.isPrefixOf_iff_prefix.mp hpre) with ⟨rest, hrest⟩
      have hp : p = 'r' :: ((str "eferences/") ++ rest) := by
        rw [← hrest]; rfl
      unfold nesting_warning_msg at he
      rw [orphan_msg_cons, hp, List.cons_append] at he
      injection he with h1 _
      exact absurd h1 (by decide)
    · cases hmem
  · cases hmem

lemma orphan_msg_inj {f g : Str}
    (h : orphan_warning_msg f = orphan_warning_msg g) : f = g := by
  unfold orphan_warning_msg at h
  have h1 := List.append_cancel_right h
  exact List.append_cancel_left h1

lemma orphan_mem_mention_iff (fs : SkillFS) (f : Str) :
    (orphan_warning_msg f ∈ vr_mention_warns fs ↔
      ((∃ files, fs.ref_listing = some files) ∧ f ∈ ref_md_files fs ∧
       ∃ sc, fs_lookup fs (str "SKILL.md") = some sc ∧
         contains_sub f sc = false)) := by
  unfold vr_mention_warns
  rcases hl : fs.ref_listing with _ | files
  · simp [hl]
  · rcases hsc : fs_lookup fs (str "SKILL.md") with _ | sc
    · simp [hsc]
    · simp only [hsc]
      constructor
      · intro h
        rcases List.mem_map.mp h with ⟨g, hg, he⟩
        have hfg := orphan_msg_inj he.symm
        subst hfg
        rcases List.mem_filter.mp hg with ⟨hmem, hpred⟩
        refine ⟨⟨files, rfl⟩, hmem, sc, rfl, ?_⟩
        revert hpred
        cases contains_sub f sc <;> simp
      · rintro ⟨-, hmem, sc2, hsc2, hcont⟩
        injection hsc2 with he
        subst he
        refine List.mem_map.mpr ⟨f, ?_, rfl⟩
        refine List.mem_filter.mpr ⟨hmem, ?_⟩
        rw [hcont]
        rfl

lemma orphan_warning_mem_iff (fs : SkillFS) (f : Str) :
    (orphan_warning_msg f ∈ (validate_references fs).warnings ↔
      ((∃ files, fs.ref_listing = some files) ∧ f ∈ ref_md_files fs ∧
       ∃ sc, fs_lookup fs (str "SKILL.md") = some sc ∧
         contains_sub f sc = false)) := by
  have hw : (validate_references fs).warnings =
      vr_empty_warns fs ++ vr_mention_warns fs ++ vr_nesting_warns fs := rfl
  rw [hw]
  rw [← orphan_mem_mention_iff fs f]
  constructor
  · intro h
    rcases List.mem_append.mp h with h2 | h2
    · rcases List.mem_append.mp h2 with h3 | h3
      · exact absurd h3 (orphan_not_in_empty fs f)
      · exact h3
    · exact absurd h2 (orphan_not_in_nesting fs f)
  · intro h
    exact List.mem_append_left _ (List.mem_append_right _ h)

/-- The SKILL.md content of the transitive-link scenario: it links only
`references/a.md`. -/
def scC7 : Str := str "---\nname: x\ndescription: d\n---\nSee [A](references/a.md)"

/-- The content of `references/a.md` in the transitive-link scenario: it
links `references/b.md`. -/
def refAContent : Str := str "See [B](references/b.md)"

/-- The transitive-link package: SKILL.md links a.md, a.md links b.md, and
b.md is physically present under references/ but mentioned nowhere in
SKILL.md. -/
def fsC7 : SkillFS :=
  { dir_state := DirState.ok,
    files := [(str "SKILL.md", scC7), (ref_a, refAContent),
              (ref_b, str "leaf")],
    ref_listing := some [str "a.md", str "b.md"],
    scripts_listing := none,
    assets_listing := none }

/-- Counterexample for C7: in `fsC7` the file `b.md` is linked transitively
(SKILL.md links `references/a.md`, whose content links `references/b.md`),
yet `validate_references` emits the `orphaned_file` warning for `b.md`,
because orphan detection is a substring test on the raw SKILL.md content,
not a transitive-link analysis. -/
theorem c7_counterexample :
    extract_md_links (strip_code_blocks scC7) = [(str "A", ref_a)] ∧
    fs_lookup fsC7 ref_a = some refAContent ∧
    extract_md_links (strip_code_blocks refAContent) = [(str "B", ref_b)] ∧
    orphan_warning_msg (str "b.md") ∈ (validate_references fsC7).warnings := by
  refine ⟨by decide, by decide, by decide, ?_⟩
  exact (orphan_warning_mem_iff fsC7 (str "b.md")).mpr
    ⟨⟨[str "a.md", str "b.md"], rfl⟩, by decide, scC7, by decide, by decide⟩

/-- C7 (amended): for every package, the `orphaned_file` warning for a file
`f` is emitted exactly when the references directory exists, `f` is one of
its `.md` entries, SKILL.md exists, and `f`'s name does not occur as a
substring of the raw SKILL.md content.  Transitive linkage through another
reference file does not prevent the warning; only a direct textual mention
in SKILL.md does. -/
theorem c7_orphan_warning_amended (fs : SkillFS) (f : Str) :
    orphan_warning_msg f ∈ (validate_references fs).warnings ↔
      ((∃ files, fs.ref_listing = some files) ∧ f ∈ ref_md_files fs ∧
       ∃ sc, fs_lookup fs (str "SKILL.md") = some sc ∧
         contains_sub f sc = false) :=
  orphan_warning_mem_iff fs f

/-- Counterexample for C1: the claim asserts that a 1600-word body in loose
mode yields "only a warning", but per the claim's own table loose mode has
good = 2000 words, so the mode-aware validator emits neither a word-count
warning nor a word-count error for it. -/
theorem c1_counterexample :
    moded_word_count body1600 = 1600 ∧
    (¬ ∃ m, (CTag.word_count, m) ∈ (validate_content body1600 VMode.loose).warnings) ∧
    (¬ ∃ m, (CTag.word_count, m) ∈ (validate_content body1600 VMode.loose).errors) := by
  refine ⟨wc1600, ?_, ?_⟩
  · intro h
    have hc := (vc_word_warning_iff body1600 VMode.loose).mp h
    rw [wc1600] at hc
    exact absurd hc.1 (by decide)
  · intro h
    have hc := (vc_word_error_iff body1600 VMode.loose).mp h
    rw [wc1600] at hc
    exact absurd hc (by decide)



/-! ## Windows-style path detection (claim C8) -/

/-- A body whose only Windows-style fragment sits strictly inside a fenced
code block: line 1 opens the fence, line 2 is the fragment, line 3 closes
the fence. -/
def c8body : Str := str "```\nscripts\\run.py\n```"

/-- The issue `validate_path_formats` reports for `c8body`. -/
def c8issue : PathIssue :=
  { line_number := 2, path := str "scripts\\run.py",
    suggested_fix := str "scripts/run.py" }

/-- Counterexample for C8: in `c8body` the fragment `scripts\run.py` lies
on the line between the two fence-delimiter lines, i.e. inside a fenced
code block, yet `validate_path_formats` still emits the Windows-path error
for it: only the delimiter lines themselves (trimmed lines starting with
three backticks) are skipped, not the lines between them. -/
theorem c8_counterexample :
    starts_with_fence (str "```") = true ∧
    validate_path_formats c8body = ([c8issue], [path_error_msg c8issue]) := by
  constructor
  · decide
  · rfl

/-- C8 (amended): for every document, an issue is recorded exactly for each
Windows-style path fragment found on a line whose trimmed form does not
start with three backticks, reporting the fragment and its
forward-slash-corrected form, and the error list is exactly the issue list
rendered; the only exemption is the fence-delimiter lines themselves —
lines strictly inside a fenced code block are still scanned. -/
theorem c8_windows_path_amended (content : Str) (iss : PathIssue) :
    (iss ∈ (validate_path_formats content).1 ↔
      ∃ i, i < (split_on_char '\n' content).length ∧
        starts_with_fence ((split_on_char '\n' content).getD i []) = false ∧
        iss.line_number = i + 1 ∧
        iss.path ∈ find_frags ((split_on_char '\n' content).getD i []) ∧
        iss.suggested_fix = backslash_to_slash iss.path) ∧
    (validate_path_formats content).2 =
      (validate_path_formats content).1.map path_error_msg := by
  obtain ⟨ln, p, sf⟩ := iss
  constructor
  · unfold validate_path_formats
    simp only [List.mem_flatMap, List.mem_range]
    constructor
    · rintro ⟨i, hi, hmem⟩
      by_cases hf : starts_with_fence ((split_on_char '\n' content).getD i []) = true
      · rw [if_pos hf] at hmem
        cases hmem
      · rw [if_neg hf] at hmem
        rcases List.mem_map.mp hmem with ⟨m, hm, he⟩
        injection he with h1 h2 h3
        subst h1
        subst h2
        subst h3
        exact ⟨i, hi, Bool.eq_false_iff.mpr hf, rfl, hm, rfl⟩
    · rintro ⟨i, hi, hf, hln, hp, hs⟩
      refine ⟨i, hi, ?_⟩
      rw [if_neg (by rw [hf]; simp)]
      subst hln
      subst hs
      exact List.mem_map.mpr ⟨p, hp, rfl⟩
  · rfl

/-! ## Name/directory match (claim C9) -/

/-- An otherwise fully valid SKILL.md whose frontmatter name is
`foo-skill`. -/
def skillmdFoo : Str :=
  str "---\nname: foo-skill\ndescription: Use when testing validation pipelines\n---\n\n# Foo Skill\n\n## Quick Start\n\nRun the validator on a package."

/-- A package holding only `skillmdFoo`, with no auxiliary directories. -/
def fsFoo : SkillFS :=
  { dir_state := DirState.ok,
    files := [(str "SKILL.md", skillmdFoo)],
    ref_listing := none,
    scripts_listing := none,
    assets_listing := none }

set_option maxRecDepth 10000 in
/-- C9: for a name in valid kebab-case format, `validate_name_format`
emits an error exactly when the name differs from the directory name, and
`matches_directory` holds exactly when they agree; the directory name the
orchestrator passes is the basename of the package path with trailing
slashes normalized away (`js_basename (path ++ "/") = js_basename path`);
and the `foo-skill` package placed in a directory named `bar` yields
exactly the one name/directory-mismatch error from the full run, while the
same package in a directory named `foo-skill` yields no error at all. -/
theorem c9_name_directory_match (name dir path : Str) (h : is_kebab name = true) :
    ((validate_name_format name dir).errors ≠ [] ↔ name ≠ dir) ∧
    ((validate_name_format name dir).matches_directory = true ↔ name = dir) ∧
    js_basename (path ++ ['/']) = js_basename path ∧
    (validate_all (str "skills/bar") fsFoo VMode.strict).errors =
      [err_mark (str "Skill name 'foo-skill' must match directory name 'bar'")] ∧
    (validate_all (str "skills/foo-skill/") fsFoo VMode.strict).errors = [] := by
  refine ⟨?_, ?_, ?_, ?_, ?_⟩
  · unfold validate_name_format
    by_cases hd : name = dir
    · subst hd
      simp [h]
    · simp [h, hd]
  · unfold validate_name_format
    by_cases hd : name = dir
    · subst hd
      simp [h]
    · simp [h, hd]
  · unfold js_basename
    rw [List.reverse_append]
    rfl
  · decide
  · decide

/-- Witness for C9 at name `foo-skill`, directory `bar`. -/
theorem c9_name_directory_match_witness :
    is_kebab (str "foo-skill") = true ∧
    ((validate_name_format (str "foo-skill") (str "bar")).errors ≠ [] ↔
      str "foo-skill" ≠ str "bar") :=
  ⟨by decide,
   (c9_name_directory_match (str "foo-skill") (str "bar")
     (str "skills/foo-skill") (by decide)).1⟩

/-! ## Duplicate missing-trigger warnings (claim C10) -/

/-- A description containing none of the trigger phrases. -/
def descFoo2 : Str := str "Validates packages and their layout"

/-- `skillmdFoo` with the trigger-free description `descFoo2`. -/
def skillmdFoo2 : Str :=
  str "---\nname: foo-skill\ndescription: Validates packages and their layout\n---\n\n# Foo Skill\n\n## Quick Start\n\nRun the validator on a package."

/-- A package holding only `skillmdFoo2`. -/
def fsFoo2 : SkillFS :=
  { dir_state := DirState.ok,
    files := [(str "SKILL.md", skillmdFoo2)],
    ref_listing := none,
    scripts_listing := none,
    assets_listing := none }

set_option maxRecDepth 10000 in
/-- C10: for every description without a trigger phrase, the
description-content check records the missing-trigger-keywords warning AND
the trigger-phrase analysis reports no explicit trigger; the two resulting
messages are distinct, and a full validation run of a package with such a
description emits both of them. -/
theorem c10_double_trigger_warning (desc : Str) (h : has_trigger desc = false) :
    (DTag.trigger, trigger_keywords_warning) ∈
      (validate_description_content desc).warnings ∧
    (analyze_trigger_phrase desc).has_explicit_trigger = false ∧
    trigger_keywords_warning ≠ explicit_trigger_warning ∧
    warn_mark trigger_keywords_warning ∈
      (validate_all (str "skills/foo-skill") fsFoo2 VMode.strict).warnings ∧
    warn_mark explicit_trigger_warning ∈
      (validate_all (str "skills/foo-skill") fsFoo2 VMode.strict).warnings := by
  refine ⟨?_, ?_, by decide, by decide, by decide⟩
  · unfold validate_description_content
    simp [h]
  · unfold analyze_trigger_phrase
    simp [h]

/-- Witness for C10 at the trigger-free description `descFoo2`. -/
theorem c10_double_trigger_warning_witness :
    has_trigger descFoo2 = false ∧
    (DTag.trigger, trigger_keywords_warning) ∈
      (validate_description_content descFoo2).warnings ∧
    (analyze_trigger_phrase descFoo2).has_explicit_trigger = false :=
  ⟨by decide, (c10_double_trigger_warning descFoo2 (by decide)).1,
   (c10_double_trigger_warning descFoo2 (by decide)).2.1⟩

/-! ## Missing frontmatter header (claim C6) -/

/-- A package whose SKILL.md has no YAML frontmatter block and whose
references directory exists but is empty. -/
def fsNoFm : SkillFS :=
  { dir_state := DirState.ok,
    files := [(str "SKILL.md", str "# Just a title\n\nBody text.")],
    ref_listing := some [],
    scripts_listing := none,
    assets_listing := none }

/-- C6: for every package whose directory is fine and whose SKILL.md exists
but lacks a frontmatter header (and whose content and references produce no
other errors), `validate_all` records exactly the one structural error
"Missing YAML frontmatter", still runs the references, scripts and assets
checks and includes their warnings in the report, and marks the package
invalid. -/
theorem c6_missing_frontmatter (path : Str) (fs : SkillFS) (mode : VMode)
    (content : Str)
    (hdir : fs.dir_state = DirState.ok)
    (hsc : fs_lookup fs (str "SKILL.md") = some content)
    (hfm : has_yaml_frontmatter content = false)
    (hpf : (validate_path_formats content).2 = [])
    (href : (validate_references fs).errors = []) :
    (validate_all path fs mode).errors =
      [err_mark (str "Missing YAML frontmatter")] ∧
    (validate_all path fs mode).warnings =
      (validate_references fs).warnings.map warn_mark ++
      (validate_scripts fs).map warn_mark ++
      (validate_assets fs).map warn_mark ∧
    (validate_all path fs mode).is_valid = false := by
  have hfmv : validate_frontmatter_structure content =
      ⟨false, false, some (str "Missing YAML frontmatter"), []⟩ := by
    unfold validate_frontmatter_structure
    rw [hfm]
    rfl
  have hsmd : validate_skill_md path fs mode =
      ⟨[err_mark (str "Missing YAML frontmatter")], [], 0, 0⟩ := by
    unfold validate_skill_md
    simp only [hsc, hfmv, hpf]
    rfl
  have hva : validate_all path fs mode =
      { errors := [err_mark (str "Missing YAML frontmatter")],
        warnings := (validate_references fs).warnings.map warn_mark ++
          (validate_scripts fs).map warn_mark ++
          (validate_assets fs).map warn_mark,
        is_valid := false,
        exceeds_line_limit := false, exceeds_word_limit := false } := by
    unfold validate_all
    unfold validate_directory
    simp only [hdir, hsmd, href]
    rfl
  rw [hva]
  exact ⟨rfl, rfl, rfl⟩

/-- Witness for C6 at the header-less package `fsNoFm`. -/
theorem c6_missing_frontmatter_witness :
    fsNoFm.dir_state = DirState.ok ∧
    fs_lookup fsNoFm (str "SKILL.md") =
      some (str "# Just a title\n\nBody text.") ∧
    has_yaml_frontmatter (str "# Just a title\n\nBody text.") = false ∧
    (validate_all (str "skills/x") fsNoFm VMode.strict).errors =
      [err_mark (str "Missing YAML frontmatter")] := by
  refine ⟨rfl, by decide, by decide, ?_⟩
  exact (c6_missing_frontmatter (str "skills/x") fsNoFm VMode.strict
    (str "# Just a title\n\nBody text.") rfl (by decide) (by decide)
    (by decide) (by decide)).1

end SkillsCli
